import Mathlib

/-!
Verification development for the zune-image / zune-png PNG decoder core.

The Rust sources embedded here are `zune-png/src/decoder.rs` and
`zune-image/src/impls/grayscale.rs`.  Helper crates (`zune-core`'s byte
cursor and colour-space enum, `zune-png`'s enums / filters / pixel-expansion
utilities and error type) are part of the same repository but their sources
are not available here; those definitions are modelled from the
specification and are marked `Modelled from the spec:` in their doc
comments.

Machine integers (`usize`, `u8`, `u16`, `u32`, `u64`) are embedded as `Nat`
with explicit `% 256` / bound checks where the source relies on wrapping or
checked arithmetic.  Byte buffers are `List Nat`.  Fallible Rust code
returns `DecodeResult`, which distinguishes a Rust panic from a returned
error.
-/

namespace ZunePng

/-- Read-only slice of a byte buffer: `n` bytes starting at `s`. -/
def slice (l : List Nat) (s n : Nat) : List Nat :=
  (l.drop s).take n

/-- In-place write of segment `seg` into buffer `l` starting at offset `s`,
keeping the buffer length fixed (out-of-range bytes of `seg` are dropped).
This models a Rust `buf[s..s+seg.len()].copy_from_slice(seg)` whose indices
are in bounds at every call site below. -/
def setRange (l : List Nat) (s : Nat) (seg : List Nat) : List Nat :=
  (List.range l.length).map
    (fun i => if s ≤ i ∧ i < s + seg.length then seg.getD (i - s) 0 else l.getD i 0)

theorem setRange_length (l : List Nat) (s : Nat) (seg : List Nat) :
    (setRange l s seg).length = l.length := by
  simp [setRange]

/-- Big-endian value of a byte list (most significant byte first). -/
def beBytes : List Nat → Nat
  | [] => 0
  | b :: bs => b * 256 ^ bs.length + beBytes bs

/-- Big-endian byte decomposition of a `u32`, as in Rust `u32::to_be_bytes`. -/
def u32BeBytes (v : Nat) : List Nat :=
  [v / 2 ^ 24 % 256, v / 2 ^ 16 % 256, v / 2 ^ 8 % 256, v % 256]

/-- Fuel-driven core of `chunksExact` (structural recursion so that concrete
inputs evaluate by `decide`/`rfl`). -/
def chunksExactGo (n : Nat) : Nat → List Nat → List (List Nat)
  | 0, _ => []
  | fuel + 1, l =>
      if n ≠ 0 ∧ n ≤ l.length then l.take n :: chunksExactGo n fuel (l.drop n)
      else []

/-- Rust `slice::chunks_exact(n)`: the complete `n`-byte chunks of a buffer,
any shorter remainder dropped. -/
def chunksExact (n : Nat) (l : List Nat) : List (List Nat) :=
  chunksExactGo n l.length l

/-- Rust `usize::checked_mul` on a 64-bit target: `none` models overflow. -/
def checkedMul (a b : Nat) : Option Nat :=
  if a * b < 2 ^ 64 then some (a * b) else none

/-! ### Enumerations and error types shared by the two crates -/

/-- Modelled from the spec: the `zune-core` `ColorSpace` enumeration, with
the variants used by the PNG decoder and the grayscale transform
(`src/zune-image/src/impls/grayscale.rs` uses `RGB`, `RGBA`, `RGBX`,
`GrayScale`; the PNG decoder uses `Luma`, `LumaA`, `RGB`, `RGBA`). -/
inductive ColorSpace where
  | RGB
  | RGBA
  | RGBX
  | GrayScale
  | Luma
  | LumaA
  deriving DecidableEq

/-- Modelled from the spec: `ColorSpace::num_components` (channel order
`L, LA, RGB, RGBA`; `RGBX` carries four channels). -/
def ColorSpace.num_components : ColorSpace → Nat
  | .RGB => 3
  | .RGBA => 4
  | .RGBX => 4
  | .GrayScale => 1
  | .Luma => 1
  | .LumaA => 2

/-- Modelled from the spec: the `zune-png` `PngColor` enumeration
(`color ∈ {Luma, LumaA, RGB, RGBA, Palette, Unknown}`, spec §3). -/
inductive PngColor where
  | Luma
  | LumaA
  | RGB
  | RGBA
  | Palette
  | Unknown
  deriving DecidableEq

/-- Modelled from the spec: `PngColor::num_components`, the samples per
pixel implied by the colour type (`1, 2, 3, or 4; Palette = 1`, spec §3). -/
def PngColor.num_components : PngColor → Nat
  | .Luma => 1
  | .LumaA => 2
  | .RGB => 3
  | .RGBA => 4
  | .Palette => 1
  | .Unknown => 0

/-- The `zune-core` `BitDepth` values produced by `PngDecoder::get_depth`. -/
inductive BitDepth where
  | Eight
  | Sixteen
  deriving DecidableEq

/-- Modelled from the spec: the `zune-core` `ByteEndian` option
(`byte_endian` is effective only for 16-bit output, spec §6). -/
inductive ByteEndian where
  | BE
  | LE
  deriving DecidableEq

/-- The `zune-png` interlace methods (`interlace_method ∈ {Standard,
Adam7}`, spec §3). -/
inductive InterlaceMethod where
  | Standard
  | Adam7
  deriving DecidableEq

/-- Modelled from the spec: the `zune-png` `FilterMethod` enumeration with
the specialised first-row forms (spec §4.5). -/
inductive FilterMethod where
  | NoneFilter
  | Sub
  | Up
  | Average
  | Paeth
  | PaethFirst
  | AvgFirst
  | Unknown
  deriving DecidableEq

/-- Modelled from the spec: `FilterMethod::from_int` — the leading byte of
each row selects the filter `0=None, 1=Sub, 2=Up, 3=Average, 4=Paeth`;
unknown filters are fatal (spec §4.5). -/
def FilterMethod.from_int : Nat → Option FilterMethod
  | 0 => some .NoneFilter
  | 1 => some .Sub
  | 2 => some .Up
  | 3 => some .Average
  | 4 => some .Paeth
  | _ => none

/-- The `zune-png` chunk tags resolved by `read_chunk_header`
(`src/zune-png/src/decoder.rs` lines 315-333). -/
inductive PngChunkType where
  | IHDR
  | tRNS
  | PLTE
  | IDAT
  | IEND
  | pHYs
  | tIME
  | gAMA
  | acTL
  | fcTL
  | iCCP
  | iTXt
  | eXIf
  | zTXt
  | tEXt
  | unkn
  deriving DecidableEq

/-- Rendering of a chunk tag as used by the `format!` message in
`read_chunk_header` (Rust `Debug` of `PngChunkType`). -/
def PngChunkType.debugName : PngChunkType → String
  | .IHDR => "IHDR"
  | .tRNS => "tRNS"
  | .PLTE => "PLTE"
  | .IDAT => "IDAT"
  | .IEND => "IEND"
  | .pHYs => "pHYs"
  | .tIME => "tIME"
  | .gAMA => "gAMA"
  | .acTL => "acTL"
  | .fcTL => "fcTL"
  | .iCCP => "iCCP"
  | .iTXt => "iTXt"
  | .eXIf => "eXIf"
  | .zTXt => "zTXt"
  | .tEXt => "tEXt"
  | .unkn => "unkn"

/-- The `zune-png` error type.  Constructors `Generic`, `GenericStatic`,
`BadSignature`, `BadCrc`, `TooSmallOutput`, `EmptyPalette` and
`ZlibDecodeErrors` appear in `src/zune-png/src/decoder.rs`; `NotEnoughBytes`
(cursor underrun) and `BadChunk` are modelled from the spec's error
taxonomy (spec §7). -/
inductive PngDecodeErrors where
  | Generic (msg : String)
  | GenericStatic (msg : String)
  | BadSignature
  | BadCrc (expected actual : Nat)
  | EmptyPalette
  | TooSmallOutput (required given : Nat)
  | ZlibDecodeErrors (kind : String)
  | NotEnoughBytes
  | BadChunk (reason : String)
  deriving DecidableEq

/-- Result of running a piece of the Rust decoder: either a panic (an
`unwrap` failure, an out-of-bounds slice, or `unreachable!`), a returned
`Err`, or a returned value. -/
inductive DecodeResult (α : Type) where
  | panicked (msg : String)
  | err (e : PngDecodeErrors)
  | ok (a : α)
  deriving DecidableEq

/-- Map over the success value of a `DecodeResult`. -/
def DecodeResult.map {α β : Type} (f : α → β) : DecodeResult α → DecodeResult β
  | .panicked m => .panicked m
  | .err e => .err e
  | .ok a => .ok (f a)

theorem DecodeResult.map_eq_ok {α β : Type} (f : α → β) (x : DecodeResult α)
    (b : β) (h : x.map f = .ok b) : ∃ a, x = .ok a ∧ b = f a := by
  cases x with
  | panicked m => simp [DecodeResult.map] at h
  | err e => simp [DecodeResult.map] at h
  | ok a => exact ⟨a, rfl, by simpa [DecodeResult.map] using h.symm⟩

/-- The outcome of a `DecodeResult` with its success value erased, used to
state that a failure propagates verbatim across result types. -/
def DecodeResult.statusOf {α : Type} : DecodeResult α → DecodeResult Unit
  | .panicked m => .panicked m
  | .err e => .err e
  | .ok _ => .ok ()

/-! ### Data model (`src/zune-png/src/decoder.rs`) -/

/-- A palette entry (`PLTEEntry`, decoder.rs lines 27-34). -/
structure PLTEEntry where
  red : Nat
  green : Nat
  blue : Nat
  alpha : Nat
  deriving DecidableEq

/-- The `Default` impl of `PLTEEntry` (decoder.rs lines 36-49): alpha
defaults to 255. -/
def PLTEEntry.defaultEntry : PLTEEntry :=
  { red := 0, green := 0, blue := 0, alpha := 255 }

/-- A framed chunk (`PngChunk`, decoder.rs lines 51-58).  `chunk` holds the
four name bytes. -/
structure PngChunk where
  length : Nat
  chunk_type : PngChunkType
  chunk : List Nat
  crc : Nat
  deriving DecidableEq

/-- Image metadata populated by the header parsers (`PngInfo`, decoder.rs
lines 111-142).  The optional ancillary metadata (gamma, tIME, eXIf, ICC,
text chunks) is not consulted by any operation embedded here and is
omitted. -/
structure PngInfo where
  width : Nat
  height : Nat
  interlace_method : InterlaceMethod
  depth : Nat
  color : PngColor
  component : Nat
  deriving DecidableEq

/-- The `Default` impl of `PngInfo` used by `PngDecoder::new_with_options`. -/
def PngInfo.defaultInfo : PngInfo :=
  { width := 0, height := 0, interlace_method := .Standard, depth := 0,
    color := .Unknown, component := 0 }

/-- Modelled from the spec: the decoder options enumerated in spec §6
(`byte_endian`, `use_sse2`, `use_sse41`, `png_confirm_crc`,
`inflate_confirm_adler`). -/
structure DecoderOptions where
  byte_endian : ByteEndian
  use_sse2 : Bool
  use_sse41 : Bool
  png_confirm_crc : Bool
  inflate_confirm_adler : Bool
  deriving DecidableEq

/-- Modelled from the spec: the default decoder options (strict mode); the
concrete values are immaterial to every claim below. -/
def DecoderOptions.defaultOptions : DecoderOptions :=
  { byte_endian := .BE, use_sse2 := true, use_sse41 := true,
    png_confirm_crc := true, inflate_confirm_adler := true }

/-! ### Byte cursor

Modelled from the spec §4.1: a bounded big-endian reader over an immutable
byte slice (`zune-core`'s `ZByteReader`; its source is not part of the two
files under study).  Reads past the end fail with `NotEnoughBytes`. -/

/-- Modelled from the spec: the byte cursor — an immutable byte view plus a
read index (spec §4.1). -/
structure ZByteReader where
  data : List Nat
  position : Nat
  deriving DecidableEq

/-- Construct a cursor at the start of a buffer. -/
def ZByteReader.mk0 (data : List Nat) : ZByteReader :=
  { data := data, position := 0 }

/-- Modelled from the spec: `remaining()` (spec §4.1). -/
def ZByteReader.remaining (r : ZByteReader) : Nat :=
  r.data.length - r.position

/-- Modelled from the spec: `has(n)` (spec §4.1). -/
def ZByteReader.has (r : ZByteReader) (n : Nat) : Bool :=
  r.position + n ≤ r.data.length

/-- Modelled from the spec: `skip(n)` advances the read index (spec §4.1). -/
def ZByteReader.skip (r : ZByteReader) (n : Nat) : ZByteReader :=
  { r with position := r.position + n }

/-- Modelled from the spec: `rewind(n)` moves the read index back, never
past the start (spec §4.1). -/
def ZByteReader.rewind (r : ZByteReader) (n : Nat) : ZByteReader :=
  { r with position := r.position - n }

/-- Modelled from the spec: an `n`-byte big-endian integer read, failing
with `NotEnoughBytes` if the span is short (spec §4.1).  Returns the value
and the advanced cursor. -/
def ZByteReader.getBeErr (r : ZByteReader) (n : Nat) :
    DecodeResult (Nat × ZByteReader) :=
  if r.has n then .ok (beBytes (slice r.data r.position n), r.skip n)
  else .err .NotEnoughBytes

/-- Modelled from the spec: `get_u32_be_err` (spec §4.1). -/
def ZByteReader.get_u32_be_err (r : ZByteReader) : DecodeResult (Nat × ZByteReader) :=
  r.getBeErr 4

/-- Modelled from the spec: `get_u64_be_err` (spec §4.1). -/
def ZByteReader.get_u64_be_err (r : ZByteReader) : DecodeResult (Nat × ZByteReader) :=
  r.getBeErr 8

/-- Modelled from the spec: `peek_at(offset, len)` returns a borrowed slice
starting `offset` bytes past the read index, without advancing; a short
span is a cursor underrun (spec §4.1, §7). -/
def ZByteReader.peek_at (r : ZByteReader) (offset len : Nat) :
    DecodeResult (List Nat) :=
  if r.position + offset + len ≤ r.data.length then
    .ok (slice r.data (r.position + offset) len)
  else .err .NotEnoughBytes

/-! ### Decoder state -/

/-- The PNG decoder state (`PngDecoder`, decoder.rs lines 159-173).  The
unknown-chunk callback field is not stored; the one embedded operation that
would invoke it (`decode_headers`' chunk loop) takes it as a parameter
instead. -/
structure PngDecoder where
  stream : ZByteReader
  options : DecoderOptions
  png_info : PngInfo
  palette : List PLTEEntry
  idat_chunks : List Nat
  previous_stride : List Nat
  trns_bytes : List Nat
  seen_hdr : Bool
  seen_ptle : Bool
  seen_headers : Bool
  seen_trns : Bool
  deriving DecidableEq

/-- `PngDecoder::new_with_options` (decoder.rs lines 203-219): constructs a
decoder without reading. -/
def PngDecoder.new_with_options (data : List Nat) (options : DecoderOptions) :
    PngDecoder :=
  { seen_hdr := false,
    stream := ZByteReader.mk0 data,
    options := options,
    palette := [],
    png_info := PngInfo.defaultInfo,
    previous_stride := [],
    idat_chunks := [],
    seen_ptle := false,
    seen_trns := false,
    seen_headers := false,
    trns_bytes := [0, 0, 0, 0] }

/-- `PngDecoder::new` (decoder.rs lines 187-192). -/
def PngDecoder.new (data : List Nat) : PngDecoder :=
  PngDecoder.new_with_options data DecoderOptions.defaultOptions

/-! ### Metadata getters (decoder.rs lines 227-300, 499-553) -/

/-- `PngDecoder::get_dimensions` (decoder.rs lines 227-235). -/
def PngDecoder.get_dimensions (d : PngDecoder) : Option (Nat × Nat) :=
  if ¬ d.seen_hdr then none
  else some (d.png_info.width, d.png_info.height)

/-- `PngDecoder::get_depth` (decoder.rs lines 243-255); the wildcard arm of
the source `match` is `unreachable!()`. -/
def PngDecoder.get_depth (d : PngDecoder) : DecodeResult (Option BitDepth) :=
  if ¬ d.seen_hdr then .ok none
  else
    match d.png_info.depth with
    | 1 | 2 | 4 | 8 => .ok (some .Eight)
    | 16 => .ok (some .Sixteen)
    | _ => .panicked "internal error: entered unreachable code"

/-- `PngDecoder::get_colorspace` (decoder.rs lines 268-300): the tRNS
promotion of the output colour space; the `Unknown` arms are
`unreachable!()`. -/
def PngDecoder.get_colorspace (d : PngDecoder) : DecodeResult (Option ColorSpace) :=
  if ¬ d.seen_hdr then .ok none
  else if ¬ d.seen_trns then
    match d.png_info.color with
    | .Palette => .ok (some .RGB)
    | .Luma => .ok (some .Luma)
    | .LumaA => .ok (some .LumaA)
    | .RGB => .ok (some .RGB)
    | .RGBA => .ok (some .RGBA)
    | .Unknown => .panicked "internal error: entered unreachable code"
  else
    match d.png_info.color with
    | .Palette | .RGB => .ok (some .RGBA)
    | .Luma => .ok (some .LumaA)
    | .LumaA => .ok (some .LumaA)
    | .RGBA => .ok (some .RGBA)
    | .Unknown => .panicked "internal error: entered unreachable code"

/-- `PngDecoder::byte_endian` (decoder.rs lines 499-502). -/
def PngDecoder.byte_endian (d : PngDecoder) : ByteEndian :=
  d.options.byte_endian

/-- `PngDecoder::output_buffer_size` (decoder.rs lines 513-535): chained
`checked_mul(..).unwrap()` — an overflow panics, as does the
`get_colorspace().unwrap()` on an `Unknown` colour. -/
def PngDecoder.output_buffer_size (d : PngDecoder) : DecodeResult (Option Nat) :=
  if ¬ d.seen_hdr then .ok none
  else
    let bytes : Nat := if d.png_info.depth = 16 then 2 else 1
    match d.get_colorspace with
    | .panicked m => .panicked m
    | .err e => .err e
    | .ok none => .panicked "called Option::unwrap on a None value"
    | .ok (some cs) =>
      let out_n := cs.num_components
      match checkedMul d.png_info.width d.png_info.height with
      | none => .panicked "called Option::unwrap on a None value"
      | some m1 =>
        match checkedMul m1 out_n with
        | none => .panicked "called Option::unwrap on a None value"
        | some m2 =>
          match checkedMul m2 bytes with
          | none => .panicked "called Option::unwrap on a None value"
          | some new_len => .ok (some new_len)

/-- `PngDecoder::get_info` (decoder.rs lines 543-553): note that the gate is
`seen_headers`, not `seen_hdr`. -/
def PngDecoder.get_info (d : PngDecoder) : Option PngInfo :=
  if d.seen_headers then some d.png_info else none

/-! ### Chunk framer and header-stage entry checks -/

/-- `PngDecoder::read_chunk_header` (decoder.rs lines 301-378).  The CRC-32
engine is an external collaborator (spec §1) and is passed in as `crc32`,
already composed with the final complement the source applies
(`!crc32_slice8(bytes, u32::MAX)`). -/
def PngDecoder.read_chunk_header (crc32 : List Nat → Nat) (d : PngDecoder) :
    DecodeResult (PngChunk × PngDecoder) :=
  match d.stream.get_u32_be_err with
  | .panicked m => .panicked m
  | .err e => .err e
  | .ok (chunk_length, s1) =>
    match s1.get_u32_be_err with
    | .panicked m => .panicked m
    | .err e => .err e
    | .ok (type_val, s2) =>
      let chunk_type_int := u32BeBytes type_val
      match s2.peek_at chunk_length 4 with
      | .panicked m => .panicked m
      | .err e => .err e
      | .ok crc_ref =>
        let crc := beBytes crc_ref
        let chunk_type : PngChunkType :=
          if chunk_type_int = [73, 72, 68, 82] then .IHDR
          else if chunk_type_int = [116, 82, 78, 83] then .tRNS
          else if chunk_type_int = [80, 76, 84, 69] then .PLTE
          else if chunk_type_int = [73, 68, 65, 84] then .IDAT
          else if chunk_type_int = [73, 69, 78, 68] then .IEND
          else if chunk_type_int = [112, 72, 89, 115] then .pHYs
          else if chunk_type_int = [116, 73, 77, 69] then .tIME
          else if chunk_type_int = [103, 65, 77, 65] then .gAMA
          else if chunk_type_int = [97, 99, 84, 76] then .acTL
          else if chunk_type_int = [102, 99, 84, 76] then .fcTL
          else if chunk_type_int = [105, 67, 67, 80] then .iCCP
          else if chunk_type_int = [105, 84, 88, 116] then .iTXt
          else if chunk_type_int = [101, 88, 73, 102] then .eXIf
          else if chunk_type_int = [122, 84, 88, 116] then .zTXt
          else if chunk_type_int = [116, 69, 88, 116] then .tEXt
          else .unkn
        if ¬ s2.has (chunk_length + 4) then
          .err (.Generic ("Not enough bytes for chunk " ++ chunk_type.debugName
            ++ ", bytes requested are " ++ toString (chunk_length + 4)
            ++ ", but bytes present are " ++ toString s2.remaining))
        else
          if d.options.png_confirm_crc then
            let s3 := s2.rewind 4
            let bytes := slice s3.data s3.position (chunk_length + 4)
            let calc_crc := crc32 bytes
            if crc ≠ calc_crc then .err (.BadCrc crc calc_crc)
            else
              .ok ({ length := chunk_length, chunk := chunk_type_int,
                     chunk_type := chunk_type, crc := crc },
                   { d with stream := s3.skip 4 })
          else
            .ok ({ length := chunk_length, chunk := chunk_type_int,
                   chunk_type := chunk_type, crc := crc },
                 { d with stream := s2 })

/-- The PNG signature constant (`constants.rs` is not among the files under
study; the value is the spec's `89 50 4E 47 0D 0A 1A 0A`, §4.3). -/
def PNG_SIGNATURE : Nat := 0x89504E470D0A1A0A

/-- The eight signature bytes, for byte-level statements. -/
def pngSignatureBytes : List Nat := [0x89, 0x50, 0x4E, 0x47, 0x0D, 0x0A, 0x1A, 0x0A]

/-- `PngDecoder::decode_headers` (decoder.rs lines 384-493).  The per-chunk
dispatch loop (whose handlers live in `headers.rs`, not among the files
under study) is abstracted as the `loopBody` parameter running after the
entry checks; on its success `seen_headers` latches, exactly as in the
source.  The entry checks themselves — the early return on `seen_headers`,
the signature comparison, and the `IHDR`-first peek — follow the source
line by line. -/
def PngDecoder.decode_headers_with
    (loopBody : PngDecoder → DecodeResult PngDecoder) (d : PngDecoder) :
    DecodeResult PngDecoder :=
  if d.seen_headers then .ok d
  else
    match d.stream.get_u64_be_err with
    | .panicked m => .panicked m
    | .err e => .err e
    | .ok (signature, s1) =>
      if signature ≠ PNG_SIGNATURE then .err .BadSignature
      else
        match s1.peek_at 4 4 with
        | .panicked m => .panicked m
        | .err e => .err e
        | .ok nameBytes =>
          if nameBytes ≠ [73, 72, 68, 82] then
            .err (.GenericStatic "First chunk not IHDR, Corrupt PNG")
          else
            (loopBody { d with stream := s1 }).map
              (fun d1 => { d1 with seen_headers := true })

/-! ### Filter kernels

Modelled from the spec §4.5 (`filters.rs` is not among the files under
study).  Each kernel maps the raw row bytes to the reconstructed bytes; all
additions are modulo 256; `a` is the already-reconstructed left neighbour at
byte stride `C`, `b` the byte above, `c` the byte above-left, each treated
as 0 outside the row. -/

/-- Modelled from the spec: the Paeth predictor — `p = a + b − c`, pick
whichever of `a, b, c` minimises `|p − candidate|`, ties resolving in order
`a, b, c` (spec §4.5). -/
def paethPredictor (a b c : Nat) : Nat :=
  let p : Int := (a : Int) + (b : Int) - (c : Int)
  let pa := (p - a).natAbs
  let pb := (p - b).natAbs
  let pc := (p - c).natAbs
  if pa ≤ pb ∧ pa ≤ pc then a else if pb ≤ pc then b else c

/-- Fuel-driven reconstruction of one output byte: `f` combines the raw
byte with `(a, b, c)`; fuel `i` always suffices since the left-neighbour
index falls by the stride `c ≥ 1` at each step.  Structural recursion so
that concrete inputs evaluate by `decide`/`rfl`. -/
def reconByteGo (f : Nat → Nat → Nat → Nat → Nat) (prev raw : List Nat) (c : Nat) :
    Nat → Nat → Nat
  | 0, i =>
      f (raw.getD i 0) 0 (prev.getD i 0) (if c ≤ i then prev.getD (i - c) 0 else 0) % 256
  | fuel + 1, i =>
      let a := if 0 < c ∧ c ≤ i then reconByteGo f prev raw c fuel (i - c) else 0
      f (raw.getD i 0) a (prev.getD i 0) (if c ≤ i then prev.getD (i - c) 0 else 0) % 256

/-- Reconstructed byte at index `i` of a filtered row. -/
def reconByte (f : Nat → Nat → Nat → Nat → Nat) (prev raw : List Nat) (c i : Nat) : Nat :=
  reconByteGo f prev raw c i i

/-- Whole-row filter reconstruction: one output byte per raw byte. -/
def reconRow (f : Nat → Nat → Nat → Nat → Nat) (prev raw : List Nat) (c : Nat) :
    List Nat :=
  (List.range raw.length).map (reconByte f prev raw c)

theorem reconRow_length (f : Nat → Nat → Nat → Nat → Nat) (prev raw : List Nat)
    (c : Nat) : (reconRow f prev raw c).length = raw.length := by
  simp [reconRow]

/-- Modelled from the spec: `handle_sub` — `x = raw + a` (spec §4.5); the
SIMD enablement flag does not change the result (spec §6). -/
def handle_sub (raw : List Nat) (components : Nat) : List Nat :=
  reconRow (fun r a _ _ => r + a) [] raw components

/-- Modelled from the spec: `handle_up` — `x = raw + b` (spec §4.5). -/
def handle_up (prev_row raw : List Nat) : List Nat :=
  reconRow (fun r _ b _ => r + b) prev_row raw 1

/-- Modelled from the spec: `handle_avg` — `x = raw + ⌊(a + b) / 2⌋`
(spec §4.5). -/
def handle_avg (prev_row raw : List Nat) (components : Nat) : List Nat :=
  reconRow (fun r a b _ => r + (a + b) / 2) prev_row raw components

/-- Modelled from the spec: `handle_avg_first` — the first-row average with
`b = 0` (spec §4.5). -/
def handle_avg_first (raw : List Nat) (components : Nat) : List Nat :=
  reconRow (fun r a b _ => r + (a + b) / 2) [] raw components

/-- Modelled from the spec: `handle_paeth` — `x = raw + paeth(a, b, c)`
(spec §4.5). -/
def handle_paeth (prev_row raw : List Nat) (components : Nat) : List Nat :=
  reconRow (fun r a b c => r + paethPredictor a b c) prev_row raw components

/-- Modelled from the spec: `handle_paeth_first` — Paeth with `b = c = 0`,
equivalent to Sub (spec §4.5). -/
def handle_paeth_first (raw : List Nat) (components : Nat) : List Nat :=
  reconRow (fun r a b c => r + paethPredictor a b c) [] raw components

/-! ### Pixel-expansion kernels

Modelled from the spec §4.6 (`utils.rs` is not among the files under
study).  Each kernel is written as an index map over the output row so that
it preserves the row length by construction, as the Rust in-place versions
do. -/

/-- Modelled from the spec: `expand_bits_to_byte` — unpack depth-1/2/4
samples MSB-first into one byte per sample, LSB-aligned and unscaled
(spec §4.6.1, §9); `width · ncomp` samples are produced and the remaining
output bytes are left untouched.  The palette flag does not alter the
extracted value (samples are left unscaled either way, spec §9). -/
def expand_bits_to_byte (width depth ncomp : Nat) (isPalette : Bool)
    (input output : List Nat) : List Nat :=
  let _ := isPalette
  let samples := width * ncomp
  (List.range output.length).map
    (fun j =>
      if j < samples ∧ 0 < depth then
        input.getD (j * depth / 8) 0 / 2 ^ (8 - depth - j * depth % 8) % 2 ^ depth
      else output.getD j 0)

theorem expand_bits_to_byte_length (width depth ncomp : Nat) (isPalette : Bool)
    (input output : List Nat) :
    (expand_bits_to_byte width depth ncomp isPalette input output).length
      = output.length := by
  simp [expand_bits_to_byte]

/-- Channel `c` of a palette entry laid out as RGB(A). -/
def PLTEEntry.channel (e : PLTEEntry) : Nat → Nat
  | 0 => e.red
  | 1 => e.green
  | 2 => e.blue
  | _ => e.alpha

/-- Modelled from the spec: `expand_palette` — each index byte of the
staged row (`input`) is replaced by the indexed palette entry's RGB
(`n = 3`) or RGBA (`n = 4`) bytes (spec §4.6.2). -/
def expand_palette (input output : List Nat) (palette : List PLTEEntry) (n : Nat) :
    List Nat :=
  (List.range output.length).map
    (fun k =>
      if 0 < n then
        (palette.getD (input.getD (k / n) 0) PLTEEntry.defaultEntry).channel (k % n)
      else output.getD k 0)

theorem expand_palette_length (input output : List Nat) (palette : List PLTEEntry)
    (n : Nat) : (expand_palette input output palette n).length = output.length := by
  simp [expand_palette]

/-- Modelled from the spec: the per-depth opaque alpha (`max_for_depth`,
spec §4.6.3); the decoder only reaches this with depth 8 or 16 samples. -/
def trnsMaxForDepth (depth : Nat) : Nat :=
  if depth = 16 then 65535 else 255

/-- Modelled from the spec: `expand_trns` for 8-bit samples — append one
alpha byte per pixel: 0 when the staged pixel (`input`) equals the tRNS key,
else `max_for_depth` (spec §4.6.3). -/
def expand_trns8 (input output : List Nat) (color : PngColor)
    (trns_bytes : List Nat) : List Nat :=
  let n := color.num_components
  (List.range output.length).map
    (fun k =>
      let p := k / (n + 1)
      let ch := k % (n + 1)
      if ch < n then input.getD (p * n + ch) 0
      else
        if (List.range n).all (fun j => input.getD (p * n + j) 0 = trns_bytes.getD j 0 % 256)
        then 0 else 255)

/-- Modelled from the spec: `expand_trns` for 16-bit samples — the key
comparison is against the big-endian byte pair, and two alpha bytes are
appended per pixel (spec §4.6.3). -/
def expand_trns16 (input output : List Nat) (color : PngColor)
    (trns_bytes : List Nat) : List Nat :=
  let n := color.num_components
  (List.range output.length).map
    (fun k =>
      let p := k / (2 * (n + 1))
      let j := k % (2 * (n + 1))
      if j < 2 * n then input.getD (p * 2 * n + j) 0
      else
        if (List.range n).all (fun s =>
            input.getD (p * 2 * n + 2 * s) 0 = trns_bytes.getD s 0 / 256 ∧
            input.getD (p * 2 * n + 2 * s + 1) 0 = trns_bytes.getD s 0 % 256)
        then 0 else 255)

/-- Modelled from the spec: `expand_trns`, dispatching on the const-generic
`B16` flag as at the two call sites (decoder.rs lines 1020-1040). -/
def expand_trns (b16 : Bool) (input output : List Nat) (color : PngColor)
    (trns_bytes : List Nat) (depth : Nat) : List Nat :=
  let _ := depth
  if b16 then expand_trns16 input output color trns_bytes
  else expand_trns8 input output color trns_bytes

theorem expand_trns_length (b16 : Bool) (input output : List Nat) (color : PngColor)
    (trns_bytes : List Nat) (depth : Nat) :
    (expand_trns b16 input output color trns_bytes depth).length = output.length := by
  cases b16 <;> simp [expand_trns, expand_trns8, expand_trns16]

/-! ### Filter reconstructor and lagged post-processor
(`PngDecoder::create_png_image_raw`, decoder.rs lines 816-1169) -/

/-- The lagged post-processing of one already-reconstructed row (the body
duplicated at decoder.rs lines 962-1068 and 1071-1166): sub-byte expansion,
then tRNS expansion for non-palette colours, then palette expansion.  The
row occupies `out[rowStart .. rowStart + ocs]`; `stride` is the
`previous_stride` scratch buffer.  Returns the updated buffer and scratch.
The `self.palette[..256]` slice panics when the palette is non-empty but
shorter than 256 entries (decoder.rs lines 1049, 1155). -/
def PngDecoder.post_process_row (d : PngDecoder) (info : PngInfo)
    (width ws ocs ncomp rowStart : Nat) (out stride : List Nat) :
    DecodeResult (List Nat × List Nat) :=
  let row := slice out rowStart ocs
  let extra_transform := d.seen_ptle || d.seen_trns
  -- step 1: sub-byte expansion / staging of the raw row into the scratch
  let staged : List Nat × List Nat :=
    if info.depth < 8 then
      if extra_transform then
        (row, expand_bits_to_byte width info.depth ncomp d.seen_ptle row stride)
      else
        let stride1 := setRange stride 0 (row.take ws)
        (expand_bits_to_byte width info.depth ncomp d.seen_ptle stride1 row, stride1)
    else
      (row, setRange stride 0 (row.take ws))
  let row1 := staged.1
  let stride1 := staged.2
  -- step 2: tRNS key expansion for non-palette colours
  let row2 :=
    if d.seen_trns ∧ d.png_info.color ≠ .Palette then
      if info.depth ≤ 8 then
        expand_trns false stride1 row1 info.color d.trns_bytes info.depth
      else if info.depth = 16 then
        expand_trns true stride1 row1 info.color d.trns_bytes info.depth
      else row1
    else row1
  -- step 3: palette expansion
  let row3 : DecodeResult (List Nat) :=
    if d.seen_ptle ∧ d.png_info.color = .Palette then
      if d.palette.isEmpty then .err .EmptyPalette
      else if d.palette.length < 256 then
        .panicked "range end index 256 out of range for slice"
      else
        let plte_entry := d.palette.take 256
        if d.seen_trns then .ok (expand_palette stride1 row2 plte_entry 4)
        else .ok (expand_palette stride1 row2 plte_entry 3)
    else .ok row2
  row3.map (fun r => (setRange out rowStart r, stride1))

/-- The filter dispatch of `create_png_image_raw` (the `match filter` at
decoder.rs lines 943-960), producing the reconstructed bytes of one row;
the `Unknown` arm is `unreachable!()`. -/
def reconFilter (filter : FilterMethod) (prev_row raw : List Nat)
    (components : Nat) : DecodeResult (List Nat) :=
  match filter with
  | .NoneFilter => .ok raw
  | .Average => .ok (handle_avg prev_row raw components)
  | .Sub => .ok (handle_sub raw components)
  | .Up => .ok (handle_up prev_row raw)
  | .Paeth => .ok (handle_paeth prev_row raw components)
  | .PaethFirst => .ok (handle_paeth_first raw components)
  | .AvgFirst => .ok (handle_avg_first raw components)
  | .Unknown => .panicked "internal error: entered unreachable code"

/-- One iteration of the un-filtering loop of `create_png_image_raw`
(decoder.rs lines 887-1069): reconstruct row `i` from its filtered chunk,
then post-process row `i − 1` when post-processing is active. -/
def PngDecoder.png_row_step (d : PngDecoder) (info : PngInfo)
    (width ws ocs components ncomp : Nat) (wpp : Bool) (chunk : List Nat)
    (i : Nat) (st : List Nat × List Nat) : DecodeResult (List Nat × List Nat) :=
  let out := st.1
  let stride := st.2
  let filter_byte := chunk.getD 0 0
  let raw := chunk.drop 1
  match FilterMethod.from_int filter_byte with
  | none => .err (.Generic ("Unknown filter " ++ toString filter_byte))
  | some filter0 =>
    -- first-row specialisation (decoder.rs lines 920-941)
    let filter :=
      if i = 0 then
        if filter0 = .Paeth then .PaethFirst
        else if filter0 = .Up then .NoneFilter
        else if filter0 = .Average then .AvgFirst
        else filter0
      else filter0
    let prev_row := if i = 0 then [0] else slice out ((i - 1) * ocs) ocs
    match reconFilter filter prev_row raw components with
    | .panicked m => .panicked m
    | .err e => .err e
    | .ok reconRowBytes =>
      let out1 := setRange out (i * ocs) (reconRowBytes.take ws)
      if wpp ∧ 0 < i then
        d.post_process_row info width ws ocs ncomp ((i - 1) * ocs) out1 stride
      else .ok (out1, stride)

/-- The un-filtering loop over the filtered chunks (the `for` loop of
decoder.rs lines 887-1069), carrying the output buffer and scratch. -/
def PngDecoder.create_rows (d : PngDecoder) (info : PngInfo)
    (width ws ocs components ncomp : Nat) (wpp : Bool) :
    List (List Nat) → Nat → List Nat × List Nat → DecodeResult (List Nat × List Nat)
  | [], _, st => .ok st
  | chunk :: rest, i, st =>
    match d.png_row_step info width ws ocs components ncomp wpp chunk i st with
    | .panicked m => .panicked m
    | .err e => .err e
    | .ok st1 => d.create_rows info width ws ocs components ncomp wpp rest (i + 1) st1

/-- `PngDecoder::create_png_image_raw` (decoder.rs lines 816-1169): create
the png data from post-deflated data.  `out` must already have space for
the rows; the final value of the `previous_stride` scratch is dropped (it
is overwritten before every later read). -/
def PngDecoder.create_png_image_raw (d : PngDecoder) (deflate_data : List Nat)
    (width height : Nat) (out : List Nat) (info : PngInfo) :
    DecodeResult (List Nat) :=
  let bytes : Nat := if info.depth = 16 then 2 else 1
  match d.get_colorspace with
  | .panicked m => .panicked m
  | .err e => .err e
  | .ok none => .panicked "called Option::unwrap on a None value"
  | .ok (some out_colorspace) =>
    let img_width_bytes := (info.component * width * info.depth + 7) / 8
    let out_n := info.color.num_components
    let image_len := img_width_bytes * height
    if deflate_data.length < image_len + height then
      .err (.Generic ("Not enough pixels, expected " ++ toString image_len
        ++ " but found " ++ toString deflate_data.length))
    else
      let components := if info.depth < 8 then 1 else info.color.num_components * bytes
      let chunk_size := (width * out_n * info.depth + 7) / 8 + 1
      let out_chunk_size := width * out_colorspace.num_components * bytes
      let width_stride := chunk_size - 1
      let wpp := d.seen_trns || d.seen_ptle || decide (info.depth < 8)
      let stride0 :=
        if wpp ∧ d.previous_stride.length < out_chunk_size then
          d.previous_stride
            ++ List.replicate (out_chunk_size - d.previous_stride.length) 0
        else d.previous_stride
      let chunksList := (chunksExact chunk_size deflate_data).take height
      match d.create_rows info width width_stride out_chunk_size components
          info.color.num_components wpp chunksList 0 (out, stride0) with
      | .panicked m => .panicked m
      | .err e => .err e
      | .ok st =>
        -- final-row post-processing (decoder.rs lines 1071-1166)
        if wpp ∧ 1 ≤ height then
          (d.post_process_row info width width_stride out_chunk_size
            info.color.num_components ((height - 1) * out_chunk_size)
            st.1 st.2).map (fun st1 => st1.1)
        else .ok st.1

/-! ### Interlace demuxer (`PngDecoder::decode_interlaced`,
decoder.rs lines 642-721) -/

/-- The Adam7 pass x-origins (decoder.rs line 646). -/
def XORIG : List Nat := [0, 4, 0, 2, 0, 1, 0]

/-- The Adam7 pass y-origins (decoder.rs line 647). -/
def YORIG : List Nat := [0, 0, 4, 0, 2, 0, 1]

/-- The Adam7 pass x-strides (decoder.rs line 649). -/
def XSPC : List Nat := [8, 8, 4, 4, 2, 2, 1]

/-- The Adam7 pass y-strides (decoder.rs line 650). -/
def YSPC : List Nat := [8, 8, 8, 4, 4, 2, 2]

/-- The subimage width of pass `p` (decoder.rs lines 670-675);
`Nat` subtraction is the source's `saturating_sub`. -/
def adam7PassX (info : PngInfo) (p : Nat) : Nat :=
  (info.width - XORIG.getD p 0 + XSPC.getD p 0 - 1) / XSPC.getD p 0

/-- The subimage height of pass `p` (decoder.rs lines 677-682). -/
def adam7PassY (info : PngInfo) (p : Nat) : Nat :=
  (info.height - YORIG.getD p 0 + YSPC.getD p 0 - 1) / YSPC.getD p 0

/-- The filtered byte count consumed by pass `p` (decoder.rs lines
686-692): `(⌈x·components·depth/8⌉ + 1)·y`. -/
def adam7PassLen (info : PngInfo) (p : Nat) : Nat :=
  ((info.color.num_components * adam7PassX info p * info.depth + 7) / 8 + 1)
    * adam7PassY info p

/-- Whether pass `p` is non-empty (empty passes are skipped, decoder.rs
line 684). -/
def adam7PassNonEmpty (info : PngInfo) (p : Nat) : Bool :=
  adam7PassX info p ≠ 0 ∧ adam7PassY info p ≠ 0

/-- Total filtered bytes consumed over a list of passes. -/
def adam7TailLen (info : PngInfo) : List Nat → Nat
  | [] => 0
  | p :: ps =>
      (if adam7PassNonEmpty info p then adam7PassLen info p else 0)
        + adam7TailLen info ps

/-- Total filtered bytes consumed over all seven passes. -/
def adam7TotalLen (info : PngInfo) : Nat :=
  adam7TailLen info (List.range 7)

/-- The pixel scatter of one pass into the final raster (decoder.rs lines
703-716). -/
def scatterPass (w x y out_bytes p : Nat) (out final_out : List Nat) : List Nat :=
  (List.range y).foldl
    (fun acc j =>
      (List.range x).foldl
        (fun acc2 i =>
          let out_y := j * YSPC.getD p 0 + YORIG.getD p 0
          let out_x := i * XSPC.getD p 0 + XORIG.getD p 0
          let final_start := out_y * w * out_bytes + out_x * out_bytes
          let out_start := (j * x + i) * out_bytes
          setRange acc2 final_start (slice final_out out_start out_bytes))
        acc)
    out

/-- The seven-pass loop of `decode_interlaced` (decoder.rs lines 668-719),
carrying the running byte offset into the inflate output. -/
def PngDecoder.interlacedLoop (d : PngDecoder) (info : PngInfo)
    (deflate : List Nat) (out_bytes : Nat) :
    List Nat → Nat → List Nat → List Nat → DecodeResult (List Nat × Nat)
  | [], offset, out, _ => .ok (out, offset)
  | p :: ps, offset, out, final_out =>
    let x := adam7PassX info p
    let y := adam7PassY info p
    if x ≠ 0 ∧ y ≠ 0 then
      let image_len := adam7PassLen info p
      if deflate.length < offset + image_len then
        .err (.GenericStatic "Too short data")
      else
        let deflate_slice := slice deflate offset image_len
        match d.create_png_image_raw deflate_slice x y final_out info with
        | .panicked m => .panicked m
        | .err e => .err e
        | .ok final1 =>
          let out1 := scatterPass info.width x y out_bytes p out final1
          d.interlacedLoop info deflate out_bytes ps (offset + image_len) out1 final1
    else d.interlacedLoop info deflate out_bytes ps offset out final_out

/-- `PngDecoder::decode_interlaced` (decoder.rs lines 642-721), also
returning the final running offset into the inflate output (which the
source discards). -/
def PngDecoder.decode_interlaced_aux (d : PngDecoder) (deflate_data out : List Nat)
    (info : PngInfo) : DecodeResult (List Nat × Nat) :=
  let bytes : Nat := if info.depth = 16 then 2 else 1
  match d.get_colorspace with
  | .panicked m => .panicked m
  | .err e => .err e
  | .ok none => .panicked "called Option::unwrap on a None value"
  | .ok (some cs) =>
    let out_n := cs.num_components
    let new_len := info.width * info.height * out_n * bytes
    let out_bytes := out_n * bytes
    let final_out := List.replicate new_len 0
    d.interlacedLoop info deflate_data out_bytes (List.range 7) 0 out final_out

/-- `PngDecoder::decode_interlaced` as the source exposes it. -/
def PngDecoder.decode_interlaced (d : PngDecoder) (deflate_data out : List Nat)
    (info : PngInfo) : DecodeResult (List Nat) :=
  (d.decode_interlaced_aux deflate_data out info).map (fun st => st.1)

/-! ### Inflate driver (`PngDecoder::inflate`, decoder.rs lines 1173-1208) -/

/-- Modelled from the spec: the options handed to the zlib collaborator
(size hint, hard output limit, Adler verification — spec §4.4 and the
builder calls at decoder.rs lines 1198-1201). -/
structure DeflateOptions where
  size_hint : Nat
  limit : Nat
  confirm_checksum : Bool
  deriving DecidableEq

/-- Modelled from the spec: `DeflateOptions::default()`; every field is
overwritten by the builder chain in `inflate`, so the defaults are
immaterial. -/
def DeflateOptions.defaultOptions : DeflateOptions :=
  { size_hint := 0, limit := 0, confirm_checksum := false }

/-- Builder `DeflateOptions::set_size_hint`. -/
def DeflateOptions.set_size_hint (o : DeflateOptions) (h : Nat) : DeflateOptions :=
  { o with size_hint := h }

/-- Builder `DeflateOptions::set_limit`. -/
def DeflateOptions.set_limit (o : DeflateOptions) (l : Nat) : DeflateOptions :=
  { o with limit := l }

/-- Builder `DeflateOptions::set_confirm_checksum`. -/
def DeflateOptions.set_confirm_checksum (o : DeflateOptions) (b : Bool) :
    DeflateOptions :=
  { o with confirm_checksum := b }

/-- The options value built inside `PngDecoder::inflate` (decoder.rs lines
1191-1201). -/
def PngDecoder.inflate_options (d : PngDecoder) : DeflateOptions :=
  let depth_scale : Nat := if d.png_info.depth = 16 then 2 else 1
  let size_hint := (d.png_info.width + 1) * d.png_info.height * depth_scale
    * d.png_info.color.num_components
  ((DeflateOptions.defaultOptions.set_size_hint size_hint).set_limit
      (size_hint + 4 * d.png_info.height)).set_confirm_checksum
    d.options.inflate_confirm_adler

/-- `PngDecoder::inflate` (decoder.rs lines 1173-1208): hand the
accumulated IDAT bytes and the built options to the zlib collaborator
(`decode_zlib`, an external collaborator per spec §1), surfacing its error
as `ZlibDecodeErrors`. -/
def PngDecoder.inflate (zlib : List Nat → DeflateOptions → Except String (List Nat))
    (d : PngDecoder) : DecodeResult (List Nat) :=
  match zlib d.idat_chunks d.inflate_options with
  | .error e => .err (.ZlibDecodeErrors e)
  | .ok v => .ok v

/-! ### Endian finaliser and `decode_into`
(decoder.rs lines 569-617) -/

/-- Modelled from the spec: `convert_be_to_target_endian_u16` — for 16-bit
images, convert each big-endian sample pair to the configured endian
(spec §4.8); the SIMD flag does not change the result (spec §6). -/
def convert_be_to_target_endian_u16 (out : List Nat) (endian : ByteEndian) :
    List Nat :=
  match endian with
  | .BE => out
  | .LE =>
    (List.range out.length).map
      (fun k => if k % 2 = 0 then out.getD (k + 1) 0 else out.getD (k - 1) 0)

theorem convert_be_to_target_endian_u16_length (out : List Nat)
    (endian : ByteEndian) :
    (convert_be_to_target_endian_u16 out endian).length = out.length := by
  cases endian <;> simp [convert_be_to_target_endian_u16]

/-- `PngDecoder::decode_into` (decoder.rs lines 569-617).  The caller's
buffer is threaded through explicitly and returned alongside the status, so
that mutation (and its absence) is observable; on an error raised before
any write the original buffer comes back unchanged.  The header-chunk loop
and the zlib engine are the usual parameters. -/
def PngDecoder.decode_into (loopBody : PngDecoder → DecodeResult PngDecoder)
    (zlib : List Nat → DeflateOptions → Except String (List Nat))
    (d : PngDecoder) (out : List Nat) : DecodeResult Unit × List Nat :=
  match (if ¬ d.seen_headers then d.decode_headers_with loopBody else .ok d) with
  | .panicked m => (.panicked m, out)
  | .err e => (.err e, out)
  | .ok d1 =>
    let info := d1.png_info
    match d1.output_buffer_size with
    | .panicked m => (.panicked m, out)
    | .err e => (.err e, out)
    | .ok none => (.panicked "called Option::unwrap on a None value", out)
    | .ok (some image_len) =>
      if out.length < image_len then
        (.err (.TooSmallOutput image_len out.length), out)
      else
        let out1 := out.take image_len
        match d1.inflate zlib with
        | .panicked m => (.panicked m, out)
        | .err e => (.err e, out)
        | .ok deflate_data =>
          let d2 := { d1 with idat_chunks := [] }
          let body : DecodeResult (List Nat) :=
            if info.interlace_method = .Standard then
              d2.create_png_image_raw deflate_data info.width info.height out1 info
            else if info.interlace_method = .Adam7 then
              d2.decode_interlaced deflate_data out1 info
            else .ok out1
          match body with
          | .panicked m => (.panicked m, out)
          | .err e => (.err e, out)
          | .ok out2 =>
            match d2.get_depth with
            | .panicked m => (.panicked m, out)
            | .err e => (.err e, out)
            | .ok none => (.panicked "called Option::unwrap on a None value", out)
            | .ok (some dep) =>
              let out3 :=
                if dep = BitDepth.Sixteen then
                  convert_be_to_target_endian_u16 out2 d2.byte_endian
                else out2
              (.ok (), out3 ++ out.drop image_len)

/-! ### The grayscale transform
(`src/zune-image/src/impls/grayscale.rs`) -/

/-- Modelled from the spec: the `zune-image` operation error type; only the
`WrongColorspace(expected, found)` variant appears in the file under
study. -/
inductive ImgOperationsErrors where
  | WrongColorspace (expected found : ColorSpace)
  deriving DecidableEq

/-- Modelled from the spec: the `zune-image` channel layout (the image
container is an external collaborator, spec §1). -/
inductive ImageChannels where
  | OneChannel (c : List Nat)
  | TwoChannels (c1 c2 : List Nat)
  | ThreeChannels (c1 c2 c3 : List Nat)
  | FourChannels (c1 c2 c3 c4 : List Nat)
  deriving DecidableEq

/-- Modelled from the spec: the `zune-image` image container — colourspace,
dimensions and channel data (spec §1 external collaborators). -/
structure Image where
  colorspace : ColorSpace
  width : Nat
  height : Nat
  channels : ImageChannels
  deriving DecidableEq

/-- `RgbToGrayScale::execute_simple`
(`src/zune-image/src/impls/grayscale.rs` lines 37-74).  The fixed-point
`rgb_to_grayscale` kernel lives in `zune-imageprocs` (an external
collaborator, spec §1) and is passed in: it receives the three channels and
the zero-initialised output and returns the filled output. -/
def RgbToGrayScale.execute_simple
    (rgb_to_grayscale : List Nat → List Nat → List Nat → List Nat → List Nat)
    (image : Image) : Except ImgOperationsErrors Image :=
  let im_colorspace := image.colorspace
  if im_colorspace ≠ ColorSpace.RGB ∨ im_colorspace ≠ ColorSpace.RGBA
      ∨ im_colorspace ≠ ColorSpace.RGBX then
    .error (.WrongColorspace ColorSpace.RGB image.colorspace)
  else
    let size := image.width * image.height
    let grayscale0 := List.replicate size 0
    let grayscale :=
      match image.channels with
      | .ThreeChannels c1 c2 c3 => rgb_to_grayscale c1 c2 c3 grayscale0
      | .FourChannels c1 c2 c3 _ => rgb_to_grayscale c1 c2 c3 grayscale0
      | _ => grayscale0
    .ok { image with channels := .OneChannel grayscale,
                     colorspace := ColorSpace.GrayScale }

/-! ## Supporting lemmas -/

theorem ColorSpace.one_le_num_components (cs : ColorSpace) :
    1 ≤ cs.num_components := by
  cases cs <;> decide

theorem ColorSpace.num_components_le_four (cs : ColorSpace) :
    cs.num_components ≤ 4 := by
  cases cs <;> decide

/-! ## Claim C1 -/

/-- C1: for every image, `RgbToGrayScale::execute_simple` returns a
`WrongColorspace` error — the colour-space guard is a disjunction of
inequalities (`c ≠ RGB || c ≠ RGBA || c ≠ RGBX`), true for every
colourspace, so the check rejects every input and no image is ever
converted. -/
theorem grayscale_guard_rejects_every_image :
    ∀ (rgb_to_grayscale : List Nat → List Nat → List Nat → List Nat → List Nat)
      (image : Image),
      RgbToGrayScale.execute_simple rgb_to_grayscale image
        = .error (.WrongColorspace ColorSpace.RGB image.colorspace) := by
  intro f image
  cases h : image.colorspace <;>
    simp [RgbToGrayScale.execute_simple, h]

/-! ## Claim C2 -/

/-- A decoder state in which `IHDR` has been parsed (`seen_hdr`) but
`decode_headers` has not yet finished (`seen_headers` still false). -/
def midHeaderState : PngDecoder :=
  { stream := ZByteReader.mk0 [],
    options := DecoderOptions.defaultOptions,
    png_info := { width := 1, height := 1, interlace_method := .Standard,
                  depth := 8, color := .Luma, component := 1 },
    palette := [], idat_chunks := [], previous_stride := [],
    trns_bytes := [0, 0, 0, 0],
    seen_hdr := true, seen_ptle := false, seen_headers := false,
    seen_trns := false }

/-- C2 counterexample: with `seen_hdr` true but `seen_headers` still false,
`get_info` returns `None` — it is gated on `seen_headers`, not `seen_hdr`
as the claim states. -/
theorem png_get_info_gated_on_seen_headers :
    midHeaderState.seen_hdr = true ∧ midHeaderState.seen_headers = false ∧
    midHeaderState.get_info = none :=
  ⟨rfl, rfl, rfl⟩

/-- C2 (amended): `get_dimensions`, `get_depth`, `get_colorspace` and
`output_buffer_size` return `None` exactly while `seen_hdr` is false and
`Some` once it is true (given the header invariants: a legal depth, a known
colour and a non-overflowing size product); `get_info`, however, is gated
on `seen_headers` and stays `None` until `decode_headers` completes. -/
theorem png_metadata_getters_gating :
    ∀ d : PngDecoder,
      (d.seen_hdr = false →
        d.get_dimensions = none ∧ d.get_depth = .ok none ∧
        d.get_colorspace = .ok none ∧ d.output_buffer_size = .ok none) ∧
      (d.seen_headers = false → d.get_info = none) ∧
      (d.seen_hdr = true →
        (d.png_info.depth = 1 ∨ d.png_info.depth = 2 ∨ d.png_info.depth = 4 ∨
          d.png_info.depth = 8 ∨ d.png_info.depth = 16) →
        d.png_info.color ≠ .Unknown →
        d.png_info.width * d.png_info.height * 4 * 2 < 2 ^ 64 →
        (∃ v, d.get_dimensions = some v) ∧ (∃ v, d.get_depth = .ok (some v)) ∧
        (∃ v, d.get_colorspace = .ok (some v)) ∧
        (∃ v, d.output_buffer_size = .ok (some v))) ∧
      (d.seen_headers = true → ∃ v, d.get_info = some v) := by
  intro d
  refine ⟨?_, ?_, ?_, ?_⟩
  · intro h
    refine ⟨?_, ?_, ?_, ?_⟩ <;>
      simp [PngDecoder.get_dimensions, PngDecoder.get_depth,
        PngDecoder.get_colorspace, PngDecoder.output_buffer_size, h]
  · intro h
    simp [PngDecoder.get_info, h]
  · intro hhdr hdepth hcolor hbound
    have hcs : ∃ cs, d.get_colorspace = .ok (some cs) := by
      by_cases ht : d.seen_trns = true
      · cases hc : d.png_info.color <;>
          simp_all [PngDecoder.get_colorspace, hhdr, ht, hc]
      · cases hc : d.png_info.color <;>
          simp_all [PngDecoder.get_colorspace, hhdr, hc]
    obtain ⟨cs, hcseq⟩ := hcs
    refine ⟨⟨(d.png_info.width, d.png_info.height), ?_⟩, ?_, ⟨cs, hcseq⟩, ?_⟩
    · simp [PngDecoder.get_dimensions, hhdr]
    · rcases hdepth with h1 | h2 | h4 | h8 | h16 <;>
        [exact ⟨.Eight, by simp [PngDecoder.get_depth, hhdr, h1]⟩;
         exact ⟨.Eight, by simp [PngDecoder.get_depth, hhdr, h2]⟩;
         exact ⟨.Eight, by simp [PngDecoder.get_depth, hhdr, h4]⟩;
         exact ⟨.Eight, by simp [PngDecoder.get_depth, hhdr, h8]⟩;
         exact ⟨.Sixteen, by simp [PngDecoder.get_depth, hhdr, h16]⟩]
    · have hb2 : (if d.png_info.depth = 16 then (2 : Nat) else 1) ≤ 2 := by
        split <;> omega
      have hcs4 := ColorSpace.num_components_le_four cs
      have hm1 : d.png_info.width * d.png_info.height < 2 ^ 64 := by
        have : d.png_info.width * d.png_info.height
            ≤ d.png_info.width * d.png_info.height * 4 * 2 := by
          nlinarith [Nat.zero_le (d.png_info.width * d.png_info.height)]
        omega
      have hm2 : d.png_info.width * d.png_info.height * cs.num_components
          < 2 ^ 64 := by
        have : d.png_info.width * d.png_info.height * cs.num_components
            ≤ d.png_info.width * d.png_info.height * 4 * 2 := by
          nlinarith [Nat.zero_le (d.png_info.width * d.png_info.height)]
        omega
      have hm3 : d.png_info.width * d.png_info.height * cs.num_components
          * (if d.png_info.depth = 16 then (2 : Nat) else 1) < 2 ^ 64 := by
        have hstep : d.png_info.width * d.png_info.height * cs.num_components
            * (if d.png_info.depth = 16 then (2 : Nat) else 1)
            ≤ d.png_info.width * d.png_info.height * 4 * 2 :=
          Nat.mul_le_mul (Nat.mul_le_mul (Nat.le_refl _) hcs4) hb2
        omega
      norm_num at hm1 hm2 hm3
      by_cases hd16 : d.png_info.depth = 16
      · have hm3a : d.png_info.width * d.png_info.height * cs.num_components * 2
            < 18446744073709551616 := by simpa [hd16] using hm3
        exact ⟨d.png_info.width * d.png_info.height * cs.num_components * 2,
          by simp [PngDecoder.output_buffer_size, hhdr, hcseq,
            checkedMul, hd16, hm1, hm2, hm3a]⟩
      · exact ⟨d.png_info.width * d.png_info.height * cs.num_components,
          by simp [PngDecoder.output_buffer_size, hhdr, hcseq,
            checkedMul, hd16, hm1, hm2]⟩
  · intro h
    exact ⟨d.png_info, by simp [PngDecoder.get_info, h]⟩

/-- C2 amended-claim witness at a concrete mid-header state. -/
theorem png_metadata_getters_gating_witness :
    midHeaderState.seen_hdr = true ∧
    (∃ v, midHeaderState.get_dimensions = some v) ∧
    (∃ v, midHeaderState.output_buffer_size = .ok (some v)) := by
  have h := (png_metadata_getters_gating midHeaderState).2.2.1 rfl
    (by decide) (by decide) (by decide)
  exact ⟨rfl, h.1, h.2.2.2⟩

/-! ## Claim C6 -/

/-- C6: with `seen_hdr` set, `get_colorspace` applies the tRNS promotion —
when `seen_trns` holds, `RGB` and `Palette` map to `RGBA`, `Luma` to
`LumaA`, and `LumaA`, `RGBA` are unchanged; without `seen_trns`, `Palette`
maps to `RGB` and `Luma`, `LumaA`, `RGB`, `RGBA` map to themselves. -/
theorem png_get_colorspace_trns_promotion :
    ∀ d : PngDecoder, d.seen_hdr = true →
      (d.seen_trns = true →
        ((d.png_info.color = .RGB ∨ d.png_info.color = .Palette) →
          d.get_colorspace = .ok (some .RGBA)) ∧
        (d.png_info.color = .Luma → d.get_colorspace = .ok (some .LumaA)) ∧
        (d.png_info.color = .LumaA → d.get_colorspace = .ok (some .LumaA)) ∧
        (d.png_info.color = .RGBA → d.get_colorspace = .ok (some .RGBA))) ∧
      (d.seen_trns = false →
        (d.png_info.color = .Palette → d.get_colorspace = .ok (some .RGB)) ∧
        (d.png_info.color = .Luma → d.get_colorspace = .ok (some .Luma)) ∧
        (d.png_info.color = .LumaA → d.get_colorspace = .ok (some .LumaA)) ∧
        (d.png_info.color = .RGB → d.get_colorspace = .ok (some .RGB)) ∧
        (d.png_info.color = .RGBA → d.get_colorspace = .ok (some .RGBA))) := by
  intro d hhdr
  constructor
  · intro ht
    refine ⟨?_, ?_, ?_, ?_⟩
    · rintro (hc | hc) <;> simp [PngDecoder.get_colorspace, hhdr, ht, hc]
    all_goals intro hc
    all_goals simp [PngDecoder.get_colorspace, hhdr, ht, hc]
  · intro ht
    refine ⟨?_, ?_, ?_, ?_, ?_⟩ <;>
      intro hc <;> simp [PngDecoder.get_colorspace, hhdr, ht, hc]

/-- A decoder state with `seen_hdr` and `seen_trns` both set and an `RGB`
colour type, for the C6 witness. -/
def trnsRgbState : PngDecoder :=
  { midHeaderState with
    png_info := { midHeaderState.png_info with color := .RGB },
    seen_trns := true }

/-- C6 witness: the tRNS promotion at the concrete `RGB` state. -/
theorem png_get_colorspace_trns_promotion_witness :
    trnsRgbState.seen_hdr = true ∧ trnsRgbState.seen_trns = true ∧
    trnsRgbState.get_colorspace = .ok (some .RGBA) :=
  ⟨rfl, rfl,
    ((png_get_colorspace_trns_promotion trnsRgbState rfl).1 rfl).1 (Or.inl rfl)⟩

/-! ## Claim C7 -/

/-- C7: `decode_headers` is idempotent — once it has completed successfully
(`seen_headers` is true), calling it again returns `Ok` immediately,
leaving the whole decoder state (its `PngInfo` and its cursor position
included) unchanged and performing no reads, whatever the chunk loop would
do. -/
theorem png_decode_headers_idempotent :
    ∀ (loopBody : PngDecoder → DecodeResult PngDecoder) (d : PngDecoder),
      d.seen_headers = true →
      d.decode_headers_with loopBody = .ok d := by
  intro loopBody d h
  simp [PngDecoder.decode_headers_with, h]

/-- A decoder state on which `decode_headers` has completed, for the C7
witness. -/
def headersDoneState : PngDecoder :=
  { midHeaderState with seen_headers := true }

/-- C7 witness: re-running `decode_headers` on a completed decoder returns
the very same state. -/
theorem png_decode_headers_idempotent_witness :
    headersDoneState.seen_headers = true ∧
    headersDoneState.decode_headers_with (fun s => .ok s)
      = .ok headersDoneState :=
  ⟨rfl, png_decode_headers_idempotent (fun s => .ok s) headersDoneState rfl⟩

/-! ## Claim C9 -/

/-- Modelled from the spec: the size hint `H = (width+1)·height·depth_scale·
components` of §4.4, with `depth_scale = 2` iff the depth is 16 and
`components` the pre-promotion component count of the colour type. -/
def specSizeHint (info : PngInfo) : Nat :=
  (info.width + 1) * info.height * (if info.depth = 16 then 2 else 1)
    * info.color.num_components

/-- C9: the inflate driver hands the zlib collaborator the size hint `H`
of the spec, a hard output limit `H + 4·height`, and the raw IDAT bytes. -/
theorem png_inflate_options_hint_and_limit :
    ∀ (zlib : List Nat → DeflateOptions → Except String (List Nat))
      (d : PngDecoder),
      d.inflate_options.size_hint = specSizeHint d.png_info ∧
      d.inflate_options.limit = specSizeHint d.png_info + 4 * d.png_info.height ∧
      d.inflate_options.confirm_checksum = d.options.inflate_confirm_adler ∧
      d.inflate zlib =
        (match zlib d.idat_chunks d.inflate_options with
          | .error e => .err (.ZlibDecodeErrors e)
          | .ok v => .ok v) := by
  intro zlib d
  refine ⟨rfl, rfl, rfl, rfl⟩

/-! ## Claim C4 -/

theorem beBytes_lt (xs : List Nat) (h : ∀ b ∈ xs, b < 256) :
    beBytes xs < 256 ^ xs.length := by
  induction xs with
  | nil => simp [beBytes]
  | cons x xs ih =>
    have hx : x < 256 := h x (by simp)
    have hxs : beBytes xs < 256 ^ xs.length := ih (fun b hb => h b (by simp [hb]))
    have : x * 256 ^ xs.length + beBytes xs
        < 256 * 256 ^ xs.length := by nlinarith
    simpa [beBytes, List.length_cons, pow_succ, mul_comm] using this

theorem beBytes_inj (xs ys : List Nat) (hlen : xs.length = ys.length)
    (hxs : ∀ b ∈ xs, b < 256) (hys : ∀ b ∈ ys, b < 256)
    (heq : beBytes xs = beBytes ys) : xs = ys := by
  induction xs generalizing ys with
  | nil => cases ys with
    | nil => rfl
    | cons y ys => simp at hlen
  | cons x xs ih =>
    cases ys with
    | nil => simp at hlen
    | cons y ys =>
      have hl : xs.length = ys.length := by simpa using hlen
      have hxlt : beBytes xs < 256 ^ xs.length :=
        beBytes_lt xs (fun b hb => hxs b (by simp [hb]))
      have hylt : beBytes ys < 256 ^ xs.length := by
        rw [hl]; exact beBytes_lt ys (fun b hb => hys b (by simp [hb]))
      have heq' : x * 256 ^ xs.length + beBytes xs
          = y * 256 ^ xs.length + beBytes ys := by
        simpa [beBytes, hl] using heq
      have hpow : 0 < 256 ^ xs.length := Nat.pos_pow_of_pos _ (by omega)
      have hx : x = y := by
        have h1 : (x * 256 ^ xs.length + beBytes xs) / 256 ^ xs.length = x := by
          rw [Nat.add_comm, Nat.add_mul_div_right _ _ hpow,
            Nat.div_eq_of_lt hxlt, Nat.zero_add]
        have h2 : (y * 256 ^ xs.length + beBytes ys) / 256 ^ xs.length = y := by
          rw [Nat.add_comm, Nat.add_mul_div_right _ _ hpow,
            Nat.div_eq_of_lt hylt, Nat.zero_add]
        rw [← h1, heq', h2]
      have htail : beBytes xs = beBytes ys := by
        rw [hx] at heq'
        omega
      rw [hx, ih ys hl (fun b hb => hxs b (by simp [hb]))
        (fun b hb => hys b (by simp [hb])) htail]

/-- C4: on a fresh decoder, `decode_headers` fails with `BadSignature` when
the first 8 bytes differ from the PNG signature, and fails with the
no-IHDR error (`GenericStatic "First chunk not IHDR, Corrupt PNG"`, the
spec's `NoIhdr` kind) when the signature matches but bytes 12–15 are not
`IHDR` — whatever the chunk loop would do. -/
theorem png_decode_headers_entry_checks :
    ∀ (loopBody : PngDecoder → DecodeResult PngDecoder) (input : List Nat),
      (∀ b ∈ input, b < 256) →
      (8 ≤ input.length → input.take 8 ≠ pngSignatureBytes →
        (PngDecoder.new input).decode_headers_with loopBody
          = .err .BadSignature) ∧
      (16 ≤ input.length → input.take 8 = pngSignatureBytes →
        (input.drop 12).take 4 ≠ [73, 72, 68, 82] →
        (PngDecoder.new input).decode_headers_with loopBody
          = .err (.GenericStatic "First chunk not IHDR, Corrupt PNG")) := by
  intro loopBody input hbytes
  constructor
  · intro hlen hne
    have hsig : beBytes (input.take 8) ≠ PNG_SIGNATURE := by
      intro he
      apply hne
      refine beBytes_inj _ _ ?_ ?_ ?_ ?_
      · have ht8 : (input.take 8).length = 8 := by
          rw [List.length_take]; omega
        rw [ht8]; decide
      · intro b hb; exact hbytes b (List.mem_of_mem_take hb)
      · decide
      · rw [he]; decide
    simp [PngDecoder.new, PngDecoder.new_with_options,
      PngDecoder.decode_headers_with, ZByteReader.mk0,
      ZByteReader.get_u64_be_err, ZByteReader.getBeErr, ZByteReader.has,
      slice, hlen, hsig]
  · intro hlen hsigeq hne
    have hsig : beBytes (input.take 8) = PNG_SIGNATURE := by
      rw [hsigeq]; decide
    have hlen8 : 0 + 8 ≤ input.length := by omega
    have hlen16 : 8 + 4 + 4 ≤ input.length := by omega
    simp [PngDecoder.new, PngDecoder.new_with_options,
      PngDecoder.decode_headers_with, ZByteReader.mk0,
      ZByteReader.get_u64_be_err, ZByteReader.getBeErr, ZByteReader.has,
      ZByteReader.skip, ZByteReader.peek_at, slice, hlen8, hlen16, hsig, hne]

/-- A 16-byte input whose first bytes are not the PNG signature. -/
def badSigInput : List Nat := List.replicate 16 0

/-- C4 witness: the all-zero input is rejected with `BadSignature`. -/
theorem png_decode_headers_entry_checks_witness :
    8 ≤ badSigInput.length ∧ badSigInput.take 8 ≠ pngSignatureBytes ∧
    (PngDecoder.new badSigInput).decode_headers_with (fun s => .ok s)
      = .err .BadSignature := by
  refine ⟨by decide, by decide, ?_⟩
  exact (png_decode_headers_entry_checks (fun s => .ok s) badSigInput
    (by decide)).1 (by decide) (by decide)

/-! ## Claim C3 -/

/-- Whether a decode result is the explicit chunk-length error — the spec's
`BadChunk` kind, which `read_chunk_header` would report through its
`Generic` message (decoder.rs lines 335-345). -/
def isBadChunkStyleErr {α : Type} : DecodeResult α → Bool
  | .err (.BadChunk _) => true
  | .err (.Generic _) => true
  | _ => false

/-- A decoder whose stream holds only an 8-byte chunk header declaring a
5-byte payload (named `IDAT`), with no payload or CRC bytes behind it. -/
def shortChunkDecoder : PngDecoder :=
  PngDecoder.new [0, 0, 0, 5, 73, 68, 65, 84]

/-- C3 counterexample: on a chunk whose declared length overruns the
remaining input, `read_chunk_header` fails with the cursor underrun
(`NotEnoughBytes`, raised by the CRC `peek_at`), not with the
`BadChunk`-style error the claim names — the dedicated length check at
decoder.rs lines 335-345 is unreachable. -/
theorem png_read_chunk_header_underrun_not_badchunk :
    shortChunkDecoder.read_chunk_header (fun _ => 0) = .err .NotEnoughBytes ∧
    isBadChunkStyleErr (shortChunkDecoder.read_chunk_header (fun _ => 0))
      = false := by
  constructor <;> rfl

/-- C3 (amended): for every chunk whose declared length `L` satisfies
`L + 4` greater than the bytes remaining after the 8-byte chunk header,
`read_chunk_header` fails — but with the cursor's `NotEnoughBytes` (raised
when peeking the CRC that sits `L` bytes ahead), not with a
`BadChunk`-style error: the explicit length check never fires. -/
theorem png_read_chunk_header_short_stream :
    ∀ (crc32 : List Nat → Nat) (d : PngDecoder),
      d.stream.position + 8 ≤ d.stream.data.length →
      d.stream.data.length
        < d.stream.position + 8
          + beBytes (slice d.stream.data d.stream.position 4) + 4 →
      d.read_chunk_header crc32 = .err .NotEnoughBytes := by
  intro crc32 d h8 hover
  have h4 : d.stream.position + 4 ≤ d.stream.data.length := by omega
  have h44 : d.stream.position + 4 + 4 ≤ d.stream.data.length := by omega
  have hpeek : ¬ (d.stream.position + 4 + 4
      + beBytes (slice d.stream.data d.stream.position 4) + 4
      ≤ d.stream.data.length) := by omega
  simp [PngDecoder.read_chunk_header, ZByteReader.get_u32_be_err,
    ZByteReader.getBeErr, ZByteReader.has, ZByteReader.skip,
    ZByteReader.peek_at, h4, h44, hpeek]

/-- C3 amended-claim witness at the concrete truncated chunk. -/
theorem png_read_chunk_header_short_stream_witness :
    shortChunkDecoder.stream.position + 8
      ≤ shortChunkDecoder.stream.data.length ∧
    shortChunkDecoder.stream.data.length
      < shortChunkDecoder.stream.position + 8
        + beBytes (slice shortChunkDecoder.stream.data
            shortChunkDecoder.stream.position 4) + 4 ∧
    shortChunkDecoder.read_chunk_header (fun _ => 0) = .err .NotEnoughBytes := by
  refine ⟨by decide, by decide, ?_⟩
  exact png_read_chunk_header_short_stream (fun _ => 0) shortChunkDecoder
    (by decide) (by decide)

/-! ## Claim C8 -/

theorem interlacedLoop_accounting (d : PngDecoder) (info : PngInfo)
    (deflate : List Nat) (out_bytes : Nat) :
    ∀ (ps : List Nat) (offset : Nat) (out final_out r : List Nat) (off : Nat),
      offset ≤ deflate.length →
      d.interlacedLoop info deflate out_bytes ps offset out final_out
        = .ok (r, off) →
      off = offset + adam7TailLen info ps ∧ off ≤ deflate.length := by
  intro ps
  induction ps with
  | nil =>
    intro offset out final_out r off hle h
    simp only [PngDecoder.interlacedLoop, DecodeResult.ok.injEq, Prod.mk.injEq] at h
    obtain ⟨h1, h2⟩ := h
    subst h2
    exact ⟨by simp [adam7TailLen], hle⟩
  | cons p ps ih =>
    intro offset out final_out r off hle h
    simp only [PngDecoder.interlacedLoop] at h
    by_cases hxy : adam7PassX info p ≠ 0 ∧ adam7PassY info p ≠ 0
    · rw [if_pos hxy] at h
      by_cases hshort : deflate.length < offset + adam7PassLen info p
      · rw [if_pos hshort] at h
        exact absurd h (by simp)
      · rw [if_neg hshort] at h
        rcases hc : d.create_png_image_raw
            (slice deflate offset (adam7PassLen info p))
            (adam7PassX info p) (adam7PassY info p) final_out info
          with m | e | final1
        · rw [hc] at h; exact absurd h (by simp)
        · rw [hc] at h; exact absurd h (by simp)
        · rw [hc] at h
          have hrec := ih (offset + adam7PassLen info p)
            (scatterPass info.width (adam7PassX info p) (adam7PassY info p)
              out_bytes p out final1)
            final1 r off (by omega) h
          have hne : adam7PassNonEmpty info p = true := by
            simp [adam7PassNonEmpty, hxy.1, hxy.2]
          simp only [adam7TailLen, hne, if_pos]
          omega
    · rw [if_neg hxy] at h
      have hrec := ih offset out final_out r off hle h
      have hne : adam7PassNonEmpty info p = false := by
        simp only [adam7PassNonEmpty, decide_eq_false_iff_not]
        exact hxy
      simp only [adam7TailLen, hne, Bool.false_eq_true, if_false]
      omega

/-- The Adam7-interlaced 1×1 `Luma` image metadata used by the C8
counterexample and witness. -/
def adam7Info : PngInfo :=
  { width := 1, height := 1, interlace_method := .Adam7, depth := 8,
    color := .Luma, component := 1 }

/-- A decoder state carrying `adam7Info` with `seen_hdr` set. -/
def adam7State : PngDecoder :=
  { midHeaderState with png_info := adam7Info }

/-- C8 counterexample: on a 1×1 Adam7 image whose inflate output carries
one trailing surplus byte (`[0, 42, 99]`, of which the single non-empty
pass consumes exactly 2), `decode_interlaced` succeeds — the running
offset ends at 2 while the inflate output has length 3, so trailing
surplus bytes ARE accepted, contrary to the claim. -/
theorem png_decode_interlaced_accepts_surplus :
    adam7State.decode_interlaced_aux [0, 42, 99] [9] adam7Info
      = .ok ([42], 2) ∧
    adam7State.decode_interlaced [0, 42, 99] [9] adam7Info = .ok [42] ∧
    ([0, 42, 99] : List Nat).length = 3 := by
  refine ⟨?_, ?_, rfl⟩ <;> rfl

theorem interlacedLoop_shortfall (d : PngDecoder) (info : PngInfo)
    (deflate : List Nat) (out_bytes : Nat) (p : Nat) (ps : List Nat)
    (offset : Nat) (out final_out : List Nat)
    (hne : adam7PassNonEmpty info p = true)
    (hshort : deflate.length < offset + adam7PassLen info p) :
    d.interlacedLoop info deflate out_bytes (p :: ps) offset out final_out
      = .err (.GenericStatic "Too short data") := by
  have hx : adam7PassX info p ≠ 0 ∧ adam7PassY info p ≠ 0 := by
    simpa [adam7PassNonEmpty] using hne
  simp only [PngDecoder.interlacedLoop]
  rw [if_pos hx, if_pos hshort]

theorem interlacedLoop_shortfall_cases (d : PngDecoder) (info : PngInfo)
    (deflate : List Nat) (out_bytes : Nat) :
    ∀ (ps : List Nat) (offset : Nat) (out final_out : List Nat),
      offset ≤ deflate.length →
      deflate.length < offset + adam7TailLen info ps →
      d.interlacedLoop info deflate out_bytes ps offset out final_out
        = .err (.GenericStatic "Too short data")
      ∨ ∃ (p offset2 : Nat) (fo : List Nat),
          (d.interlacedLoop info deflate out_bytes ps offset out
              final_out).statusOf
            = (d.create_png_image_raw
                (slice deflate offset2 (adam7PassLen info p))
                (adam7PassX info p) (adam7PassY info p) fo info).statusOf ∧
          ∀ v, d.create_png_image_raw
              (slice deflate offset2 (adam7PassLen info p))
              (adam7PassX info p) (adam7PassY info p) fo info ≠ .ok v := by
  intro ps
  induction ps with
  | nil =>
    intro offset out final_out hle hshort
    simp only [adam7TailLen, Nat.add_zero] at hshort
    omega
  | cons p ps ih =>
    intro offset out final_out hle hshort
    by_cases hxy : adam7PassX info p ≠ 0 ∧ adam7PassY info p ≠ 0
    · have hne : adam7PassNonEmpty info p = true := by
        simp [adam7PassNonEmpty, hxy.1, hxy.2]
      by_cases hov : deflate.length < offset + adam7PassLen info p
      · exact Or.inl (interlacedLoop_shortfall d info deflate out_bytes p ps
          offset out final_out hne hov)
      · rcases hc : d.create_png_image_raw
            (slice deflate offset (adam7PassLen info p))
            (adam7PassX info p) (adam7PassY info p) final_out info
          with m | e | final1
        · refine Or.inr ⟨p, offset, final_out, ?_, ?_⟩
          · have hl : d.interlacedLoop info deflate out_bytes (p :: ps)
                offset out final_out = .panicked m := by
              simp only [PngDecoder.interlacedLoop]
              rw [if_pos hxy, if_neg hov, hc]
            rw [hl, hc]
            rfl
          · intro v
            rw [hc]
            exact fun hcon => DecodeResult.noConfusion hcon
        · refine Or.inr ⟨p, offset, final_out, ?_, ?_⟩
          · have hl : d.interlacedLoop info deflate out_bytes (p :: ps)
                offset out final_out = .err e := by
              simp only [PngDecoder.interlacedLoop]
              rw [if_pos hxy, if_neg hov, hc]
            rw [hl, hc]
            rfl
          · intro v
            rw [hc]
            exact fun hcon => DecodeResult.noConfusion hcon
        · have hstep : d.interlacedLoop info deflate out_bytes (p :: ps)
              offset out final_out
              = d.interlacedLoop info deflate out_bytes ps
                  (offset + adam7PassLen info p)
                  (scatterPass info.width (adam7PassX info p)
                    (adam7PassY info p) out_bytes p out final1) final1 := by
            simp only [PngDecoder.interlacedLoop]
            rw [if_pos hxy, if_neg hov, hc]
          have htail : deflate.length
              < offset + adam7PassLen info p + adam7TailLen info ps := by
            have hc8 : adam7TailLen info (p :: ps)
                = adam7PassLen info p + adam7TailLen info ps := by
              simp [adam7TailLen, hne]
            omega
          have hle2 : offset + adam7PassLen info p ≤ deflate.length := by
            omega
          have hrec := ih (offset + adam7PassLen info p)
            (scatterPass info.width (adam7PassX info p) (adam7PassY info p)
              out_bytes p out final1) final1 hle2 htail
          rw [hstep]
          exact hrec
    · have hne : adam7PassNonEmpty info p = false := by
        simp only [adam7PassNonEmpty, decide_eq_false_iff_not]
        exact hxy
      have htail : deflate.length < offset + adam7TailLen info ps := by
        have hc8 : adam7TailLen info (p :: ps) = adam7TailLen info ps := by
          simp [adam7TailLen, hne]
        omega
      have hstep : d.interlacedLoop info deflate out_bytes (p :: ps)
          offset out final_out
          = d.interlacedLoop info deflate out_bytes ps offset out final_out := by
        simp only [PngDecoder.interlacedLoop]
        rw [if_neg hxy]
      rw [hstep]
      exact ih offset out final_out hle htail

/-- C8 (amended): each non-empty Adam7 pass (subimage dimensions by the
saturating ceiling formula, zero-sized passes skipped without error)
consumes exactly `filtered_len(x,y) = (⌈x·components·depth/8⌉+1)·y` bytes
at a running offset; whenever the pass loop reaches a non-empty pass that
would extend past the end of the inflate output — at any pass index and
any running offset — it fails with `GenericStatic "Too short data"`, so a
total shortfall makes `decode_interlaced` fail with that error unless an
earlier pass's `create_png_image_raw` failure propagates first; and on
success the final running offset equals the sum of the non-empty passes'
lengths, which is at most — but need not equal — `inflate_output.len()`
(trailing surplus bytes are accepted). -/
theorem png_decode_interlaced_pass_accounting :
    (∀ (d : PngDecoder) (deflate out : List Nat) (info : PngInfo)
      (r : List Nat) (off : Nat),
      d.decode_interlaced_aux deflate out info = .ok (r, off) →
      off = adam7TotalLen info ∧ adam7TotalLen info ≤ deflate.length) ∧
    (∀ (d : PngDecoder) (info : PngInfo) (deflate : List Nat)
      (out_bytes p : Nat) (ps : List Nat) (offset : Nat)
      (out final_out : List Nat),
      adam7PassNonEmpty info p = true →
      deflate.length < offset + adam7PassLen info p →
      d.interlacedLoop info deflate out_bytes (p :: ps) offset out final_out
        = .err (.GenericStatic "Too short data")) ∧
    (∀ (d : PngDecoder) (deflate out : List Nat) (info : PngInfo)
      (cs : ColorSpace),
      d.get_colorspace = .ok (some cs) →
      deflate.length < adam7TotalLen info →
      d.decode_interlaced_aux deflate out info
        = .err (.GenericStatic "Too short data")
      ∨ ∃ (p offset2 : Nat) (fo : List Nat),
          (d.decode_interlaced_aux deflate out info).statusOf
            = (d.create_png_image_raw
                (slice deflate offset2 (adam7PassLen info p))
                (adam7PassX info p) (adam7PassY info p) fo info).statusOf ∧
          ∀ v, d.create_png_image_raw
              (slice deflate offset2 (adam7PassLen info p))
              (adam7PassX info p) (adam7PassY info p) fo info ≠ .ok v) := by
  refine ⟨?_, ?_, ?_⟩
  · intro d deflate out info r off h
    simp only [PngDecoder.decode_interlaced_aux] at h
    rcases hc : d.get_colorspace with m | e | ocs
    · rw [hc] at h; exact absurd h (by simp)
    · rw [hc] at h; exact absurd h (by simp)
    · rcases ocs with _ | cs
      · rw [hc] at h; exact absurd h (by simp)
      · rw [hc] at h
        have := interlacedLoop_accounting d info deflate
          (cs.num_components * (if info.depth = 16 then 2 else 1))
          (List.range 7) 0 out
          (List.replicate (info.width * info.height * cs.num_components
            * (if info.depth = 16 then 2 else 1)) 0)
          r off (Nat.zero_le _) h
        obtain ⟨ha, hb⟩ := this
        simp only [Nat.zero_add] at ha
        exact ⟨by simpa [adam7TotalLen] using ha, by simp only [adam7TotalLen]; omega⟩
  · intro d info deflate out_bytes p ps offset out final_out hne hshort
    exact interlacedLoop_shortfall d info deflate out_bytes p ps offset out
      final_out hne hshort
  · intro d deflate out info cs hcs hshort
    have hunf : d.decode_interlaced_aux deflate out info
        = d.interlacedLoop info deflate
            (cs.num_components * (if info.depth = 16 then 2 else 1))
            (List.range 7) 0 out
            (List.replicate (info.width * info.height * cs.num_components
              * (if info.depth = 16 then 2 else 1)) 0) := by
      simp only [PngDecoder.decode_interlaced_aux, hcs]
    rw [hunf]
    exact interlacedLoop_shortfall_cases d info deflate
      (cs.num_components * (if info.depth = 16 then 2 else 1))
      (List.range 7) 0 out
      (List.replicate (info.width * info.height * cs.num_components
        * (if info.depth = 16 then 2 else 1)) 0)
      (Nat.zero_le _) (by simpa [adam7TotalLen] using hshort)

/-- C8 amended-claim witness: the concrete 1×1 Adam7 decode consumes
exactly the 2 bytes of its single non-empty pass out of the 3 available. -/
theorem png_decode_interlaced_pass_accounting_witness :
    adam7State.decode_interlaced_aux [0, 42, 99] [9] adam7Info
      = .ok ([42], 2) ∧
    2 = adam7TotalLen adam7Info ∧
    adam7TotalLen adam7Info ≤ ([0, 42, 99] : List Nat).length := by
  have h := png_decode_interlaced_pass_accounting.1 adam7State [0, 42, 99] [9]
    adam7Info [42] 2 (by rfl)
  exact ⟨by rfl, h.1, h.2⟩

/-! ## Claim C10 -/

/-- The palette-branch behaviour of the lagged post-processor: for a
palette image at depth ≥ 8 without tRNS, the row is palette-expanded —
after an `EmptyPalette` check that only an entirely empty palette fails,
and a `[..256]` slice that panics whenever the palette holds fewer than
256 entries. -/
theorem post_process_row_palette (d : PngDecoder) (info : PngInfo)
    (width ws ocs ncomp rowStart : Nat) (out stride : List Nat)
    (hp : d.seen_ptle = true) (hc : d.png_info.color = .Palette)
    (ht : d.seen_trns = false) (hd : ¬ info.depth < 8) :
    d.post_process_row info width ws ocs ncomp rowStart out stride
      = (if d.palette = [] then .err .EmptyPalette
         else if d.palette.length < 256 then
           .panicked "range end index 256 out of range for slice"
         else .ok (setRange out rowStart
             (expand_palette (setRange stride 0 ((slice out rowStart ocs).take ws))
               (slice out rowStart ocs) (d.palette.take 256) 3),
           setRange stride 0 ((slice out rowStart ocs).take ws))) := by
  rcases eq_or_ne d.palette [] with h1 | h1
  · simp [PngDecoder.post_process_row, hp, hc, ht, hd, h1, DecodeResult.map]
  · have h1e : d.palette.isEmpty = false := by
      simpa [List.isEmpty_iff] using h1
    by_cases h2 : d.palette.length < 256 <;>
      simp [PngDecoder.post_process_row, hp, hc, ht, hd, h1, h1e, h2,
        DecodeResult.map]

/-- The 1×1 depth-8 palette image metadata used by the C10 theorem. -/
def palInfo : PngInfo :=
  { width := 1, height := 1, interlace_method := .Standard, depth := 8,
    color := .Palette, component := 1 }

/-- A decoder state holding `palInfo` and the given palette, with
`seen_hdr` and `seen_ptle` set. -/
def palState (pal : List PLTEEntry) : PngDecoder :=
  { midHeaderState with
    png_info := palInfo,
    palette := pal,
    seen_ptle := true }

/-- C10: during palette expansion, `create_png_image_raw` takes the
fixed-size slice `palette[..256]`: an entirely empty palette is reported as
`EmptyPalette`, a non-empty palette of fewer than 256 entries panics
instead of returning an error, and only a palette of at least 256 entries
decodes — palette decoding is panic-free only when PLTE parsing leaves at
least 256 entries. -/
theorem png_palette_shorter_than_256_panics :
    ∀ pal : List PLTEEntry,
      (pal = [] →
        (palState pal).create_png_image_raw [0, 5] 1 1 [0, 0, 0] palInfo
          = .err .EmptyPalette) ∧
      (pal ≠ [] → pal.length < 256 →
        (palState pal).create_png_image_raw [0, 5] 1 1 [0, 0, 0] palInfo
          = .panicked "range end index 256 out of range for slice") ∧
      (256 ≤ pal.length →
        ∃ o, (palState pal).create_png_image_raw [0, 5] 1 1 [0, 0, 0] palInfo
          = .ok o) := by
  intro pal
  have hstep : (palState pal).create_png_image_raw [0, 5] 1 1 [0, 0, 0] palInfo
      = ((palState pal).post_process_row palInfo 1 1 3 1 0 [5, 0, 0]
          [0, 0, 0]).map (fun st1 => st1.1) := rfl
  have hred : (palState pal).create_png_image_raw [0, 5] 1 1 [0, 0, 0] palInfo
      = if pal = [] then .err .EmptyPalette
        else if pal.length < 256 then
          .panicked "range end index 256 out of range for slice"
        else .ok (setRange [5, 0, 0] 0
          (expand_palette (setRange [0, 0, 0] 0 ((slice [5, 0, 0] 0 3).take 1))
            (slice [5, 0, 0] 0 3) (pal.take 256) 3)) := by
    rw [hstep, post_process_row_palette _ _ _ _ _ _ _ _ _ rfl rfl rfl (by decide)]
    rcases eq_or_ne pal [] with h1 | h1
    · subst h1
      simp [DecodeResult.map,
        show (palState ([] : List PLTEEntry)).palette = [] from rfl]
    · have hpal : (palState pal).palette = pal := rfl
      by_cases h2 : pal.length < 256 <;> simp [hpal, h1, h2, DecodeResult.map]
  refine ⟨?_, ?_, ?_⟩
  · intro h
    subst h
    rfl
  · intro hne hlt
    rw [hred]
    simp [hne, hlt]
  · intro hge
    have hne : pal ≠ [] := by
      intro h
      subst h
      simp at hge
    exact ⟨setRange [5, 0, 0] 0
      (expand_palette (setRange [0, 0, 0] 0 ((slice [5, 0, 0] 0 3).take 1))
        (slice [5, 0, 0] 0 3) (pal.take 256) 3),
      by rw [hred]; simp [hne, Nat.not_lt.mpr hge]⟩

/-- C10 witness: a one-entry palette makes the concrete 1×1 palette decode
panic at the `palette[..256]` slice. -/
theorem png_palette_shorter_than_256_panics_witness :
    ([⟨1, 2, 3, 255⟩] : List PLTEEntry) ≠ [] ∧
    ([⟨1, 2, 3, 255⟩] : List PLTEEntry).length < 256 ∧
    (palState [⟨1, 2, 3, 255⟩]).create_png_image_raw [0, 5] 1 1 [0, 0, 0] palInfo
      = .panicked "range end index 256 out of range for slice" := by
  refine ⟨by decide, by decide, ?_⟩
  exact (png_palette_shorter_than_256_panics [⟨1, 2, 3, 255⟩]).2.1
    (by decide) (by decide)

/-! ## Claim C5: length-preservation lemmas -/

theorem foldl_length_preserved {β : Type} (g : List Nat → β → List Nat)
    (hg : ∀ acc b, (g acc b).length = acc.length) :
    ∀ (l : List β) (acc : List Nat), (l.foldl g acc).length = acc.length := by
  intro l
  induction l with
  | nil => intro acc; rfl
  | cons b bs ih =>
    intro acc
    rw [List.foldl_cons, ih (g acc b), hg]

theorem scatterPass_length (w x y ob p : Nat) (out fo : List Nat) :
    (scatterPass w x y ob p out fo).length = out.length := by
  unfold scatterPass
  refine foldl_length_preserved _ ?_ _ _
  intro acc j
  refine foldl_length_preserved _ ?_ _ _
  intro acc2 i
  exact setRange_length _ _ _

theorem post_process_row_out_length (d : PngDecoder) (info : PngInfo)
    (width ws ocs ncomp rowStart : Nat) (out stride out' stride' : List Nat)
    (h : d.post_process_row info width ws ocs ncomp rowStart out stride
      = .ok (out', stride')) :
    out'.length = out.length := by
  have hshape : ∃ (r3 : DecodeResult (List Nat)) (s1 : List Nat),
      d.post_process_row info width ws ocs ncomp rowStart out stride
        = r3.map (fun r => (setRange out rowStart r, s1)) := ⟨_, _, rfl⟩
  obtain ⟨r3, s1, heq⟩ := hshape
  rw [heq] at h
  obtain ⟨a, _, hb⟩ := DecodeResult.map_eq_ok _ _ _ h
  have hb1 : out' = setRange out rowStart a := congrArg Prod.fst hb
  rw [hb1, setRange_length]

theorem png_row_step_out_length (d : PngDecoder) (info : PngInfo)
    (width ws ocs components ncomp : Nat) (wpp : Bool) (chunk : List Nat)
    (i : Nat) (st st' : List Nat × List Nat)
    (h : d.png_row_step info width ws ocs components ncomp wpp chunk i st
      = .ok st') :
    st'.1.length = st.1.length := by
  obtain ⟨o2, s2⟩ := st'
  unfold PngDecoder.png_row_step at h
  dsimp only at h
  repeat' split at h
  all_goals
    first
    | exact DecodeResult.noConfusion h
    | (have hlen := post_process_row_out_length d info width ws ocs ncomp
        ((i - 1) * ocs) _ _ o2 s2 h
       rw [setRange_length] at hlen
       exact hlen)
    | (simp only [DecodeResult.ok.injEq, Prod.mk.injEq] at h
       rw [← h.1, setRange_length])

theorem create_rows_out_length (d : PngDecoder) (info : PngInfo)
    (width ws ocs components ncomp : Nat) (wpp : Bool) :
    ∀ (chunks : List (List Nat)) (i : Nat) (st st' : List Nat × List Nat),
      d.create_rows info width ws ocs components ncomp wpp chunks i st
        = .ok st' →
      st'.1.length = st.1.length := by
  intro chunks
  induction chunks with
  | nil =>
    intro i st st' h
    simp only [PngDecoder.create_rows, DecodeResult.ok.injEq] at h
    rw [h]
  | cons chunk rest ih =>
    intro i st st' h
    simp only [PngDecoder.create_rows] at h
    rcases hs : d.png_row_step info width ws ocs components ncomp wpp chunk i st
      with m | e | st1
    · rw [hs] at h; exact DecodeResult.noConfusion h
    · rw [hs] at h; exact DecodeResult.noConfusion h
    · rw [hs] at h
      rw [ih (i + 1) st1 st' h]
      exact png_row_step_out_length d info width ws ocs components ncomp wpp
        chunk i st st1 hs

theorem create_png_image_raw_out_length (d : PngDecoder)
    (deflate_data : List Nat) (width height : Nat) (out : List Nat)
    (info : PngInfo) (out' : List Nat)
    (h : d.create_png_image_raw deflate_data width height out info = .ok out') :
    out'.length = out.length := by
  unfold PngDecoder.create_png_image_raw at h
  dsimp only at h
  split at h
  · exact DecodeResult.noConfusion h
  · exact DecodeResult.noConfusion h
  · exact DecodeResult.noConfusion h
  · split at h
    · exact DecodeResult.noConfusion h
    · split at h
      · exact DecodeResult.noConfusion h
      · exact DecodeResult.noConfusion h
      · rename_i st hrows
        split at h
        · obtain ⟨a, ha, hb⟩ := DecodeResult.map_eq_ok _ _ _ h
          obtain ⟨a1, a2⟩ := a
          have h1 := post_process_row_out_length _ _ _ _ _ _ _ _ _ _ _ ha
          have h2 := create_rows_out_length _ _ _ _ _ _ _ _ _ _ _ _ hrows
          rw [hb]
          dsimp only
          rw [h1, h2]
        · simp only [DecodeResult.ok.injEq] at h
          rw [← h]
          exact create_rows_out_length _ _ _ _ _ _ _ _ _ _ _ _ hrows

theorem interlacedLoop_out_length (d : PngDecoder) (info : PngInfo)
    (deflate : List Nat) (out_bytes : Nat) :
    ∀ (ps : List Nat) (offset : Nat) (out final_out r : List Nat) (off : Nat),
      d.interlacedLoop info deflate out_bytes ps offset out final_out
        = .ok (r, off) →
      r.length = out.length := by
  intro ps
  induction ps with
  | nil =>
    intro offset out final_out r off h
    simp only [PngDecoder.interlacedLoop, DecodeResult.ok.injEq,
      Prod.mk.injEq] at h
    rw [h.1]
  | cons p ps ih =>
    intro offset out final_out r off h
    simp only [PngDecoder.interlacedLoop] at h
    by_cases hxy : adam7PassX info p ≠ 0 ∧ adam7PassY info p ≠ 0
    · rw [if_pos hxy] at h
      by_cases hshort : deflate.length < offset + adam7PassLen info p
      · rw [if_pos hshort] at h
        exact DecodeResult.noConfusion h
      · rw [if_neg hshort] at h
        rcases hc : d.create_png_image_raw
            (slice deflate offset (adam7PassLen info p))
            (adam7PassX info p) (adam7PassY info p) final_out info
          with m | e | final1
        · rw [hc] at h; exact DecodeResult.noConfusion h
        · rw [hc] at h; exact DecodeResult.noConfusion h
        · rw [hc] at h
          rw [ih _ _ _ _ _ h, scatterPass_length]
    · rw [if_neg hxy] at h
      exact ih _ _ _ _ _ h

theorem decode_interlaced_out_length (d : PngDecoder)
    (deflate_data out : List Nat) (info : PngInfo) (out' : List Nat)
    (h : d.decode_interlaced deflate_data out info = .ok out') :
    out'.length = out.length := by
  unfold PngDecoder.decode_interlaced at h
  obtain ⟨⟨r, off⟩, ha, hb⟩ := DecodeResult.map_eq_ok _ _ _ h
  unfold PngDecoder.decode_interlaced_aux at ha
  dsimp only at ha
  repeat' split at ha
  all_goals
    first
    | exact DecodeResult.noConfusion ha
    | (rw [hb]
       exact interlacedLoop_out_length _ _ _ _ _ _ _ _ _ _ ha)

/-! ## Claim C5 -/

/-- C5: for a decoder whose headers are decoded (so `output_buffer_size` is
`Some n`), `decode_into out` with `out.len() < n` fails with
`TooSmallOutput(n, out.len())` and returns the buffer unmutated; and every
successful call writes exactly the `n`-byte prefix of `out` — the buffer
keeps its length and every byte beyond the prefix is unchanged. -/
theorem png_decode_into_contract :
    ∀ (loopBody : PngDecoder → DecodeResult PngDecoder)
      (zlib : List Nat → DeflateOptions → Except String (List Nat))
      (d : PngDecoder) (out : List Nat) (n : Nat),
      d.seen_headers = true →
      d.output_buffer_size = .ok (some n) →
      (out.length < n →
        d.decode_into loopBody zlib out
          = (.err (.TooSmallOutput n out.length), out)) ∧
      (∀ (r : Unit) (out' : List Nat),
        d.decode_into loopBody zlib out = (.ok r, out') →
        out'.length = out.length ∧ out'.drop n = out.drop n ∧
        (out'.take n).length = n) := by
  intro loopBody zlib d out n hsh hobs
  have hif : (if ¬ d.seen_headers then d.decode_headers_with loopBody
      else .ok d) = .ok d := by simp [hsh]
  constructor
  · intro hlt
    unfold PngDecoder.decode_into
    rw [hif]
    dsimp only
    rw [hobs]
    dsimp only
    rw [if_pos hlt]
  · intro r out' h
    unfold PngDecoder.decode_into at h
    rw [hif] at h
    dsimp only at h
    rw [hobs] at h
    dsimp only at h
    by_cases hlt : out.length < n
    · rw [if_pos hlt] at h
      simp at h
    · rw [if_neg hlt] at h
      have hn : n ≤ out.length := Nat.le_of_not_lt hlt
      have htk : (out.take n).length = n := by
        rw [List.length_take]
        omega
      rcases hz : PngDecoder.inflate zlib d with m | e | deflate_data
      · rw [hz] at h; simp at h
      · rw [hz] at h; simp at h
      · rw [hz] at h
        dsimp only at h
        -- the filter/interlace body
        have hbody : ∀ out2 : List Nat,
            (if d.png_info.interlace_method = InterlaceMethod.Standard then
              PngDecoder.create_png_image_raw { d with idat_chunks := [] }
                deflate_data d.png_info.width d.png_info.height
                (out.take n) d.png_info
            else if d.png_info.interlace_method = InterlaceMethod.Adam7 then
              PngDecoder.decode_interlaced { d with idat_chunks := [] }
                deflate_data (out.take n) d.png_info
            else .ok (out.take n)) = .ok out2 →
            out2.length = n := by
          intro out2 hb
          split_ifs at hb
          · rw [create_png_image_raw_out_length _ _ _ _ _ _ _ hb, htk]
          · rw [decode_interlaced_out_length _ _ _ _ _ hb, htk]
          · simp only [DecodeResult.ok.injEq] at hb
            rw [← hb, htk]
        rcases hbv : (if d.png_info.interlace_method = InterlaceMethod.Standard
            then PngDecoder.create_png_image_raw { d with idat_chunks := [] }
              deflate_data d.png_info.width d.png_info.height
              (out.take n) d.png_info
            else if d.png_info.interlace_method = InterlaceMethod.Adam7 then
              PngDecoder.decode_interlaced { d with idat_chunks := [] }
                deflate_data (out.take n) d.png_info
            else .ok (out.take n)) with m | e | out2
        · rw [hbv] at h; simp at h
        · rw [hbv] at h; simp at h
        · rw [hbv] at h
          dsimp only at h
          rcases hd : PngDecoder.get_depth { d with idat_chunks := [] }
            with m | e | od
          · rw [hd] at h; simp at h
          · rw [hd] at h; simp at h
          · rcases od with _ | dep
            · rw [hd] at h; simp at h
            · rw [hd] at h
              dsimp only at h
              simp only [Prod.mk.injEq] at h
              have hout2 : out2.length = n := hbody out2 hbv
              have hout3 : (if dep = BitDepth.Sixteen then
                  convert_be_to_target_endian_u16 out2
                    (PngDecoder.byte_endian { d with idat_chunks := [] })
                  else out2).length = n := by
                split_ifs
                · rw [convert_be_to_target_endian_u16_length, hout2]
                · exact hout2
              rw [← h.2]
              refine ⟨?_, ?_, ?_⟩
              · rw [List.length_append, hout3, List.length_drop]
                omega
              · rw [← hout3, List.drop_left]
              · rw [List.length_take, List.length_append, hout3,
                  List.length_drop]
                omega

/-- C5 witness: the too-small-output failure at a concrete 1×1 decoder
whose required buffer size is 1 byte. -/
theorem png_decode_into_contract_witness :
    headersDoneState.seen_headers = true ∧
    headersDoneState.output_buffer_size = .ok (some 1) ∧
    headersDoneState.decode_into (fun s => .ok s) (fun _ _ => .ok []) []
      = (.err (.TooSmallOutput 1 0), []) := by
  refine ⟨rfl, by decide, ?_⟩
  exact (png_decode_into_contract (fun s => .ok s) (fun _ _ => .ok [])
    headersDoneState [] 1 rfl (by decide)).1 (by decide)

end ZunePng
